import Mathlib

/-!
Shallow embedding of the WebSocket protocol-engine parts of this repository:
the fragment reassembly accumulator and event handler of
components/esp_websocket_client/examples/autobahn-testsuite/testee/main/autobahn_testee.c,
the echo send retry loop of the same file, and the layered idempotent
transport close that the spec describes (transport.c itself is not among the
sources, so that part is modelled from the spec).

Modelling conventions: byte buffers are lists of Nat; sizes are Nat (no
overflow is reachable, all sizes in play are bounded by the 65537 byte
accumulator capacity); esp_err_t is a small inductive; malloc is modelled as
always succeeding, so the ESP_ERR_NO_MEM paths are never taken;
uninitialised buffer bytes read as 0.
-/

/-- The esp_err_t values the testee distinguishes. -/
inductive EspErr where
  | ok
  | errInvalidSize
  | errNoMem
deriving DecidableEq

/-- autobahn_testee.c:60. -/
def MAX_FRAGMENTED_PAYLOAD : Nat := 65537

/-- esp_transport_ws.h opcode constant WS_TRANSPORT_OPCODES_CONT. -/
def WS_TRANSPORT_OPCODES_CONT : Nat := 0x00

/-- esp_transport_ws.h opcode constant WS_TRANSPORT_OPCODES_TEXT. -/
def WS_TRANSPORT_OPCODES_TEXT : Nat := 0x01

/-- esp_transport_ws.h opcode constant WS_TRANSPORT_OPCODES_BINARY. -/
def WS_TRANSPORT_OPCODES_BINARY : Nat := 0x02

/-- ws_accumulator_t (autobahn_testee.c:62-69). The C buffer pointer is either
NULL or aliases the global s_accum_buffer; bufferSet models it being
non-NULL. The buffer bytes themselves live in WsState.accumBufWrites. -/
structure Accumulator where
  bufferSet : Bool
  capacity : Nat
  expected_len : Nat
  received : Nat
  opcode : Nat
  active : Bool
deriving DecidableEq

/-- One WEBSOCKET_EVENT_DATA payload, as the testee reads
esp_websocket_event_data_t: data_len is chunk.length, ptrNull models
data_ptr == NULL, fin is only logged by the handler. -/
structure DataEvent where
  op_code : Nat
  payload_len : Nat
  payload_offset : Nat
  fin : Bool
  ptrNull : Bool
  chunk : List Nat
deriving DecidableEq

/-- What the handler hands to the echo send path: opcode and payload bytes. -/
structure Echo where
  opcode : Nat
  payload : List Nat
deriving DecidableEq

/-- The handler globals: test_running, s_accumulator, whether s_accum_buffer
is allocated, and the contents of s_accum_buffer as the list of (offset,
chunk) memcpy writes performed into it, newest first. -/
structure WsState where
  test_running : Bool
  accum : Accumulator
  accumBufAlloc : Bool
  accumBufWrites : List (Nat × List Nat)
deriving DecidableEq

/-- Byte i of the reassembly buffer: the newest write covering index i, else 0
(uninitialised memory is modelled as 0). -/
def writesGet : List (Nat × List Nat) → Nat → Nat
  | [], _ => 0
  | (off, chunk) :: rest, i =>
    if off ≤ i ∧ i < off + chunk.length then chunk.getD (i - off) 0
    else writesGet rest i

/-- The completed message the handler hands on (autobahn_testee.c:297-299):
the first expected_len bytes of the reassembly buffer. -/
def accumPayload (s : WsState) : List Nat :=
  (List.range s.accum.expected_len).map (writesGet s.accumBufWrites)

/-- ws_accumulator_reset (autobahn_testee.c:74-81): clear the bookkeeping but
keep the buffer pointer, capacity and buffer contents for reuse. -/
def ws_accumulator_reset (a : Accumulator) : Accumulator :=
  { a with expected_len := 0, received := 0, opcode := 0, active := false }

/-- ws_accumulator_reset acting on the whole handler state. -/
def wsReset (s : WsState) : WsState := { s with accum := ws_accumulator_reset s.accum }

/-- ws_accumulator_prepare (autobahn_testee.c:93-136). The on-demand malloc of
s_accum_buffer is modelled as always succeeding, so the ESP_ERR_NO_MEM branch
is never taken. -/
def ws_accumulator_prepare (s : WsState) (total_len : Nat) (opcode : Nat) :
    EspErr × WsState :=
  if total_len = 0 then (EspErr.ok, s)
  else if MAX_FRAGMENTED_PAYLOAD < total_len then (EspErr.errInvalidSize, s)
  else
    (EspErr.ok,
      { s with
        accumBufAlloc := true,
        accum :=
          { bufferSet := true, capacity := MAX_FRAGMENTED_PAYLOAD,
            expected_len := total_len, received := 0, opcode := opcode,
            active := true } })

/-- total_len at autobahn_testee.c:222. -/
def totalLen (e : DataEvent) : Nat :=
  if e.payload_len ≠ 0 then e.payload_len else e.chunk.length

/-- The fragmentation test at autobahn_testee.c:223-224. -/
def fragmented (e : DataEvent) : Prop :=
  (0 < e.payload_len ∧ e.chunk.length < e.payload_len) ∨ 0 < e.payload_offset

instance (e : DataEvent) : Decidable (fragmented e) := by
  unfold fragmented; infer_instance

/-- The echo opcode selection at autobahn_testee.c:190-200; none means the
unsupported-opcode break. -/
def sendOpcodeFor (op : Nat) : Option Nat :=
  if op = 0x1 then some WS_TRANSPORT_OPCODES_TEXT
  else if op = 0x2 then some WS_TRANSPORT_OPCODES_BINARY
  else if op = 0x0 then some WS_TRANSPORT_OPCODES_CONT
  else none

/-- The prepare-or-restart step at autobahn_testee.c:240-252. The Bool is
false when the C code breaks out of the event because prepare failed. -/
def prepStep (s : WsState) (e : DataEvent) (total : Nat) (sop : Nat) :
    WsState × Bool :=
  if e.payload_offset = 0 ∨ s.accum.active = false then
    match ws_accumulator_prepare s total sop with
    | (EspErr.ok, s1) => (s1, true)
    | (_, s1) => (s1, false)
  else if total ≠ s.accum.expected_len then
    match ws_accumulator_prepare (wsReset s) total sop with
    | (EspErr.ok, s1) => (s1, true)
    | (_, s1) => (s1, false)
  else (s, true)

/-- The fragment accumulation block at autobahn_testee.c:229-302: the
prepare-or-restart step, the validity checks, the memcpy at the reported
offset, and the completion test. Returns the next state and, when the message
completed, the payload and opcode handed to the echo path. The caller has
already ensured s_accum_buffer is allocated (line 231, modelled as a
successful allocation). -/
def fragBlock (s1 : WsState) (e : DataEvent) (sop : Nat) :
    WsState × Option (List Nat × Nat) :=
  match prepStep s1 e (totalLen e) sop with
  | (s2, false) => (s2, none)
  | (s2, true) =>
    if s2.accum.active = false ∨ s2.accum.bufferSet = false then (wsReset s2, none)
    else if e.ptrNull = true ∧ 0 < e.chunk.length then (wsReset s2, none)
    else if s2.accum.capacity < e.payload_offset + e.chunk.length then (wsReset s2, none)
    else if s2.accum.expected_len < e.payload_offset + e.chunk.length then (wsReset s2, none)
    else if s2.accum.bufferSet = false then (wsReset s2, none)
    else
      let s3 : WsState :=
        { s2 with
          accumBufWrites := (e.payload_offset, e.chunk) :: s2.accumBufWrites,
          accum := { s2.accum with received := e.payload_offset + e.chunk.length } }
      if s3.accum.received < s3.accum.expected_len then (s3, none)
      else
        ({ s3 with accum := { s3.accum with active := false } },
          some (accumPayload s3, s3.accum.opcode))

/-- The state after the memcpy at autobahn_testee.c:287-288: the chunk is
recorded at its offset and received becomes offset plus chunk length. -/
def copyState (s2 : WsState) (e : DataEvent) : WsState :=
  { s2 with
    accumBufWrites := (e.payload_offset, e.chunk) :: s2.accumBufWrites,
    accum := { s2.accum with received := e.payload_offset + e.chunk.length } }

/-- The state after message completion (autobahn_testee.c:297-301): as after
the copy, with the accumulator deactivated. -/
def completeState (s2 : WsState) (e : DataEvent) : WsState :=
  { copyState s2 e with accum := { (copyState s2 e).accum with active := false } }

/-- The WEBSOCKET_EVENT_DATA case of websocket_event_handler
(autobahn_testee.c:170-391). conn is what esp_websocket_client_is_connected
reports during this event. The returned Echo is what the send retry loop
(modelled separately by echoSendRetryLoop) is invoked with; none means the
handler broke out of the case without echoing. -/
def handleDataEvent (s0 : WsState) (conn : Bool) (e : DataEvent) :
    WsState × Option Echo :=
  if s0.test_running = false ∨ conn = false then (wsReset s0, none)
  else if 8 ≤ e.op_code then (s0, none)
  else
    match sendOpcodeFor e.op_code with
    | none => (s0, none)
    | some sop =>
      if e.ptrNull = true ∧ 0 < e.chunk.length then (s0, none)
      else
        match
          (if fragmented e ∧ 0 < totalLen e then
            fragBlock { s0 with accumBufAlloc := true } e sop
          else (s0, some (e.chunk, sop))) with
        | (s1, none) => (s1, none)
        | (s1, some (payload, sop2)) =>
          if conn = false then (wsReset s1, none)
          else (s1, some { opcode := sop2, payload := payload })

/-- The connection-level events the handler reacts to. For data events, conn
carries the value the is_connected query returns while the event is handled. -/
inductive WsEvent where
  | connected
  | disconnected
  | data (conn : Bool) (e : DataEvent)
  | error
  | finish
deriving DecidableEq

/-- websocket_event_handler (autobahn_testee.c:141-426), one invocation. -/
def websocket_event_handler (s : WsState) : WsEvent → WsState × Option Echo
  | WsEvent.connected => ({ s with test_running := true }, none)
  | WsEvent.disconnected => ({ wsReset s with test_running := false }, none)
  | WsEvent.data conn e => handleDataEvent s conn e
  | WsEvent.error => ({ wsReset s with test_running := false }, none)
  | WsEvent.finish => ({ wsReset s with test_running := false }, none)

/-- The handler globals at program start (static zero initialisation,
autobahn_testee.c:71-72). -/
def initState : WsState :=
  { test_running := false,
    accum :=
      { bufferSet := false, capacity := 0, expected_len := 0, received := 0,
        opcode := 0, active := false },
    accumBufAlloc := false, accumBufWrites := [] }

/-- Run the handler over a list of events, collecting the echoes in order. -/
def runEvents (s : WsState) : List WsEvent → WsState × List Echo
  | [] => (s, [])
  | ev :: rest =>
    match websocket_event_handler s ev with
    | (s1, eo) =>
      match runEvents s1 rest with
      | (s2, echoes) => (s2, eo.toList ++ echoes)

/-- The accumulator bookkeeping invariant of the spec data model. -/
def accInv (a : Accumulator) : Prop :=
  a.received ≤ a.expected_len ∧ a.expected_len ≤ a.capacity

instance (a : Accumulator) : Decidable (accInv a) := by
  unfold accInv; infer_instance

/-- Whether an event is a data event that enters the fragment accumulation
path (a first fragment or chunk can only be prepared there). -/
def isFragDataEvent : WsEvent → Prop
  | WsEvent.data _ e => fragmented e ∧ 0 < totalLen e
  | _ => False

instance (ev : WsEvent) : Decidable (isFragDataEvent ev) := by
  cases ev <;> simp only [isFragDataEvent] <;> infer_instance

/-- Modelled from the spec: the websocket client library
(esp_websocket_client.c and esp_transport_ws.c are not among these sources)
automatically answers a received ping (opcode 0x09) with exactly one pong
carrying an identical payload, without consumer involvement; the testee
handler itself only logs the ping (autobahn_testee.c:181-187). -/
def wsClientAutoPong (e : DataEvent) : List (List Nat) :=
  if e.op_code = 0x09 then [e.chunk] else []

/-- One layer of the layered transport stack: its closed flag and how many
times its underlying resource has been released. -/
structure Layer where
  closed : Bool
  releases : Nat
deriving DecidableEq

/-- The out-of-range default for layer lookup (treated as already closed). -/
def layerDefault : Layer := { closed := true, releases := 0 }

/-- Modelled from the spec: esp_transport_close over the layered stack
(transport.c is not among these sources; spec section 4.1 and the fix sketched
in websocket_example.c:49-59). Closing an already closed layer is a no-op;
closing an open layer releases its resource once, marks it closed, and closes
the layer beneath it (the websocket close handler closes the layer below, so
teardown cascades downward). The list head is the layer being closed, the
tail the layers beneath it. -/
def closeCascade : List Layer → List Layer
  | [] => []
  | l :: rest =>
    if l.closed = true then l :: rest
    else { closed := true, releases := l.releases + 1 } :: closeCascade rest

/-- Modelled from the spec: one esp_transport_close call on the layer at
index i of the stack (index 0 is the topmost layer). -/
def closeAt (s : List Layer) (i : Nat) : List Layer :=
  s.take i ++ closeCascade (s.drop i)

/-- A sequence of close invocations, each naming the layer it targets. -/
def runCloses (s : List Layer) (ops : List Nat) : List Layer :=
  ops.foldl closeAt s

/-- A freshly opened stack of depth d: nothing closed, nothing released. -/
def openStack (d : Nat) : List Layer :=
  List.replicate d { closed := false, releases := 0 }

/-- Layer lookup with the already-closed default. -/
def layerAt : List Layer → Nat → Layer
  | [], _ => layerDefault
  | l :: _, 0 => l
  | _ :: rest, n + 1 => layerAt rest n

/-- Release count of the layer at index i. -/
def releasesAt (s : List Layer) (i : Nat) : Nat := (layerAt s i).releases

/-- Closed flag of the layer at index i. -/
def closedAt (s : List Layer) (i : Nat) : Bool := (layerAt s i).closed

/-- Stack invariant: a layer has been released exactly once if it is closed
and never otherwise. -/
def RelOk (s : List Layer) : Prop :=
  ∀ x ∈ s, x.releases = if x.closed = true then 1 else 0

/-- Stack invariant: closing cascades downward, so the closed layers form a
downward-closed suffix region. -/
def DC : List Layer → Prop
  | [] => True
  | l :: rest => (l.closed = true → ∀ y ∈ rest, y.closed = true) ∧ DC rest

/-- Outcome of the echo send retry loop. -/
inductive EchoResult where
  | success (bytes : Int)
  | failed
  | running
deriving DecidableEq

/-- The per-attempt backoff table at autobahn_testee.c:313. -/
def backoff : List Nat := [1, 1, 1, 2, 4, 8]

/-- The wait before retry j: the backoff table entry for the first six failed
attempts, then a fixed 32 ticks (autobahn_testee.c:367-379). -/
def sched (j : Nat) : Nat := if j < 6 then backoff.getD j 32 else 32

/-- The echo send retry loop at autobahn_testee.c:311-380. conn i is whether
the client reports connected when the loop condition is checked before
attempt i; res i is what esp_websocket_client_send_with_opcode returns at
attempt i (negative means the send failed). fuel bounds how many attempts are
unrolled: running means the loop was still retrying after fuel attempts.
Returns the list of waits performed and the outcome. -/
def echoSendRetryLoop (conn : Nat → Bool) (res : Nat → Int) :
    Nat → Nat → Nat → List Nat × EchoResult
  | _, _, 0 => ([], EchoResult.running)
  | iter, attempt, fuel + 1 =>
    if conn iter = false then ([], EchoResult.failed)
    else if 0 ≤ res iter then ([], EchoResult.success (res iter))
    else
      let d := if attempt < 6 then backoff.getD attempt 32 else 32
      let r := echoSendRetryLoop conn res (iter + 1)
        (if attempt < 6 then attempt + 1 else attempt) fuel
      (d :: r.1, r.2)

/-- The waits the retry loop performs for k consecutive failed attempts,
starting from a given attempt counter. -/
def schedList : Nat → Nat → List Nat
  | _, 0 => []
  | attempt, k + 1 =>
    (if attempt < 6 then backoff.getD attempt 32 else 32) ::
      schedList (if attempt < 6 then attempt + 1 else attempt) k

/-- Send results for the retry loop witness: five would-blocks, then 42
bytes written. -/
def resWitness : Nat → Int := fun j => if j < 5 then -1 else 42

/-- A connected, idle handler state (after WEBSOCKET_EVENT_CONNECTED, before
any fragmented traffic). -/
def readyState : WsState :=
  { test_running := true,
    accum :=
      { bufferSet := false, capacity := 0, expected_len := 0, received := 0,
        opcode := 0, active := false },
    accumBufAlloc := false, accumBufWrites := [] }

/-- A handler state in the middle of accumulating an 8 byte binary message
(first 4 bytes received). -/
def midAccumState : WsState :=
  { test_running := true,
    accum :=
      { bufferSet := true, capacity := 65537, expected_len := 8, received := 4,
        opcode := 2, active := true },
    accumBufAlloc := true, accumBufWrites := [(0, [1, 2, 3, 4])] }

/-- A first chunk of an 8 byte fragmented message. -/
def c2FirstFragment : DataEvent :=
  { op_code := 2, payload_len := 8, payload_offset := 0, fin := false,
    ptrNull := false, chunk := [10, 11, 12, 13] }

/-- A chunk declaring a 70000 byte total, above MAX_FRAGMENTED_PAYLOAD. -/
def oversizeEvent : DataEvent :=
  { op_code := 2, payload_len := 70000, payload_offset := 0, fin := false,
    ptrNull := false, chunk := [1, 2, 3] }

/-- A chunk whose offset plus length exceeds the declared 8 byte total. -/
def overflowChunk : DataEvent :=
  { op_code := 0, payload_len := 8, payload_offset := 6, fin := true,
    ptrNull := false, chunk := [9, 9, 9] }

/-- An in-bounds continuation chunk of the 8 byte message. -/
def inBoundsChunk : DataEvent :=
  { op_code := 0, payload_len := 8, payload_offset := 4, fin := false,
    ptrNull := false, chunk := [5, 6] }

/-- The chunk that completes the 8 byte message of midAccumState. -/
def completingChunk : DataEvent :=
  { op_code := 0, payload_len := 8, payload_offset := 4, fin := true,
    ptrNull := false, chunk := [5, 6, 7, 8] }

/-- The state after completingChunk has been processed from midAccumState. -/
def completedState : WsState :=
  { test_running := true,
    accum :=
      { bufferSet := true, capacity := 65537, expected_len := 8, received := 8,
        opcode := 2, active := false },
    accumBufAlloc := true, accumBufWrites := [(4, [5, 6, 7, 8]), (0, [1, 2, 3, 4])] }

/-- An offset 0 chunk of a new 10 byte message, arriving mid-accumulation. -/
def preemptChunk : DataEvent :=
  { op_code := 2, payload_len := 10, payload_offset := 0, fin := false,
    ptrNull := false, chunk := [21, 22] }

/-- A ping data event (opcode 0x09) with a 1 byte payload. -/
def pingEvent : DataEvent :=
  { op_code := 9, payload_len := 1, payload_offset := 0, fin := true,
    ptrNull := false, chunk := [7] }

/-- A mid-message chunk declaring a new total of 12 bytes (was 8). -/
def lengthChangeChunk : DataEvent :=
  { op_code := 2, payload_len := 12, payload_offset := 4, fin := false,
    ptrNull := false, chunk := [31, 32] }

/-- Counterexample run, event 1: first half of an 8 byte message of 0xAA. -/
def staleSetup : DataEvent :=
  { op_code := 2, payload_len := 8, payload_offset := 0, fin := false,
    ptrNull := false, chunk := [170, 170, 170, 170] }

/-- Counterexample run, event 2: offset 0 preemption by a new 8 byte message. -/
def stalePreempt : DataEvent :=
  { op_code := 2, payload_len := 8, payload_offset := 0, fin := false,
    ptrNull := false, chunk := [187, 187] }

/-- Counterexample run, event 3: a gap-leaving chunk that completes the new
message. -/
def staleFinish : DataEvent :=
  { op_code := 0, payload_len := 8, payload_offset := 6, fin := true,
    ptrNull := false, chunk := [204, 204] }

/-- sendOpcodeFor succeeds only on the data opcodes 0x0, 0x1, 0x2. -/
theorem sendOpcodeFor_some {op sop : Nat} (h : sendOpcodeFor op = some sop) :
    ¬ 8 ≤ op := by
  unfold sendOpcodeFor at h
  split_ifs at h with h1 h2 h3
  all_goals omega

/-- ws_accumulator_prepare leaves the buffer contents untouched. -/
theorem ws_accumulator_prepare_writes (s : WsState) (t op : Nat) :
    ((ws_accumulator_prepare s t op).2).accumBufWrites = s.accumBufWrites := by
  unfold ws_accumulator_prepare
  split_ifs <;> rfl

/-- The three outcomes of ws_accumulator_prepare. -/
theorem ws_accumulator_prepare_cases (s : WsState) (t op : Nat) :
    (t = 0 ∧ ws_accumulator_prepare s t op = (EspErr.ok, s)) ∨
    (MAX_FRAGMENTED_PAYLOAD < t ∧
      ws_accumulator_prepare s t op = (EspErr.errInvalidSize, s)) ∨
    (0 < t ∧ t ≤ MAX_FRAGMENTED_PAYLOAD ∧
      ws_accumulator_prepare s t op =
        (EspErr.ok,
          { s with
            accumBufAlloc := true,
            accum :=
              { bufferSet := true, capacity := MAX_FRAGMENTED_PAYLOAD,
                expected_len := t, received := 0, opcode := op,
                active := true } })) := by
  unfold ws_accumulator_prepare
  split_ifs with h1 h2
  · exact Or.inl ⟨h1, rfl⟩
  · exact Or.inr (Or.inl ⟨h2, rfl⟩)
  · exact Or.inr (Or.inr ⟨by omega, by omega, rfl⟩)

/-- Claim C10: preparing the accumulator with a declared total length of 0
returns ESP_OK and leaves the whole handler state unchanged: the accumulator
is not activated, no field is written, no buffer is allocated. -/
theorem prepare_zero_length_noop (s : WsState) (op : Nat) :
    ws_accumulator_prepare s 0 op = (EspErr.ok, s) := by
  unfold ws_accumulator_prepare
  simp

/-- Claim C7: a control frame (opcode at least 0x08) is skipped before the
handler touches the accumulator, so every field of the handler state is
unchanged and no echo is issued; the automatic pong (modelled from the spec,
it lives in the client library) is exactly one pong carrying an identical
payload when the control frame is a ping, and nothing otherwise. -/
theorem control_frames_preserve_accumulator (s0 : WsState) (conn : Bool)
    (e : DataEvent) (hrun : s0.test_running = true) (hconn : conn = true)
    (hctrl : 8 ≤ e.op_code) :
    handleDataEvent s0 conn e = (s0, none) ∧
    wsClientAutoPong e = (if e.op_code = 9 then [e.chunk] else []) := by
  constructor
  · unfold handleDataEvent
    rw [if_neg (by simp [hrun, hconn]), if_pos hctrl]
  · rfl

/-- Claim C2 (amended): a delivery entering the accumulation path whose
declared total length exceeds MAX_FRAGMENTED_PAYLOAD is rejected by
ws_accumulator_prepare with ESP_ERR_INVALID_SIZE before any payload byte is
copied into the buffer and without echoing; the rejection leaves the
accumulator fields exactly as they were in the first-chunk branch (offset 0
or inactive accumulator) and resets them in the mid-message length-change
branch — so the accumulator is inactive afterwards whenever it was inactive
before, but an active previous accumulation preempted at offset 0 by the
oversized delivery keeps its state. -/
theorem oversize_rejected_before_copy (s0 : WsState) (conn : Bool)
    (e : DataEvent) (sop : Nat)
    (hrun : s0.test_running = true) (hconn : conn = true)
    (hop : sendOpcodeFor e.op_code = some sop)
    (hptr : ¬(e.ptrNull = true ∧ 0 < e.chunk.length))
    (hfrag : fragmented e)
    (hexp : s0.accum.expected_len ≤ MAX_FRAGMENTED_PAYLOAD)
    (hbig : MAX_FRAGMENTED_PAYLOAD < totalLen e) :
    (handleDataEvent s0 conn e).2 = none ∧
    (handleDataEvent s0 conn e).1.accumBufWrites = s0.accumBufWrites ∧
    (handleDataEvent s0 conn e).1.accum =
      (if e.payload_offset = 0 ∨ s0.accum.active = false then s0.accum
       else ws_accumulator_reset s0.accum) ∧
    (ws_accumulator_prepare { s0 with accumBufAlloc := true } (totalLen e) sop).1 =
      EspErr.errInvalidSize := by
  have hop8 := sendOpcodeFor_some hop
  have ht0 : ¬ totalLen e = 0 := by
    unfold MAX_FRAGMENTED_PAYLOAD at hbig; omega
  have hpos : 0 < totalLen e := Nat.pos_of_ne_zero ht0
  have hfr : fragmented e ∧ 0 < totalLen e := ⟨hfrag, hpos⟩
  have hprep : ∀ s : WsState,
      ws_accumulator_prepare s (totalLen e) sop = (EspErr.errInvalidSize, s) := by
    intro s; unfold ws_accumulator_prepare; rw [if_neg ht0, if_pos hbig]
  by_cases hcase : e.payload_offset = 0 ∨ s0.accum.active = false
  · have hps : prepStep { s0 with accumBufAlloc := true } e (totalLen e) sop =
        ({ s0 with accumBufAlloc := true }, false) := by
      unfold prepStep
      rw [if_pos hcase, hprep]
    have hfb : fragBlock { s0 with accumBufAlloc := true } e sop =
        ({ s0 with accumBufAlloc := true }, none) := by
      unfold fragBlock; rw [hps]
    have hmain : handleDataEvent s0 conn e = ({ s0 with accumBufAlloc := true }, none) := by
      rw [hrun] at hfb
      simp [handleDataEvent, hrun, hconn, hop, hop8, hptr, hfr, hfb]
    rw [hmain]
    refine ⟨rfl, rfl, ?_, ?_⟩
    · rw [if_pos hcase]
    · rw [hprep]
  · have hne : totalLen e ≠ ({ s0 with accumBufAlloc := true } : WsState).accum.expected_len := by
      show totalLen e ≠ s0.accum.expected_len
      unfold MAX_FRAGMENTED_PAYLOAD at hbig hexp
      omega
    have hps : prepStep { s0 with accumBufAlloc := true } e (totalLen e) sop =
        (wsReset { s0 with accumBufAlloc := true }, false) := by
      unfold prepStep
      rw [if_neg hcase, if_pos hne, hprep]
    have hfb : fragBlock { s0 with accumBufAlloc := true } e sop =
        (wsReset { s0 with accumBufAlloc := true }, none) := by
      unfold fragBlock; rw [hps]
    have hmain : handleDataEvent s0 conn e =
        (wsReset { s0 with accumBufAlloc := true }, none) := by
      rw [hrun] at hfb
      simp [handleDataEvent, hrun, hconn, hop, hop8, hptr, hfr, hfb]
    rw [hmain]
    refine ⟨rfl, rfl, ?_, ?_⟩
    · rw [if_neg hcase]; rfl
    · rw [hprep]

/-- Claim C2 counterexample: an 8 byte accumulation is in flight; an
oversized delivery (70000 declared bytes) arrives at offset 0 and is
rejected, yet the accumulator is still active afterwards — the claim that
the accumulator is inactive after every size-limit rejection is false. -/
theorem oversize_counterexample :
    MAX_FRAGMENTED_PAYLOAD < totalLen oversizeEvent ∧
    ((runEvents initState
        [WsEvent.connected, WsEvent.data true c2FirstFragment,
          WsEvent.data true oversizeEvent]).1).accum.active = true ∧
    (runEvents initState
        [WsEvent.connected, WsEvent.data true c2FirstFragment,
          WsEvent.data true oversizeEvent]).2 = [] := by decide

/-- Claim C2 witness at a concrete input. -/
theorem oversize_rejected_before_copy_witness :
    (handleDataEvent readyState true oversizeEvent).2 = none ∧
    (handleDataEvent readyState true oversizeEvent).1.accumBufWrites =
      readyState.accumBufWrites ∧
    (handleDataEvent readyState true oversizeEvent).1.accum =
      (if oversizeEvent.payload_offset = 0 ∨ readyState.accum.active = false then
        readyState.accum
       else ws_accumulator_reset readyState.accum) ∧
    (ws_accumulator_prepare { readyState with accumBufAlloc := true }
        (totalLen oversizeEvent) 2).1 = EspErr.errInvalidSize :=
  oversize_rejected_before_copy readyState true oversizeEvent 2 (by decide)
    (by decide) (by decide) (by decide) (by decide) (by decide) (by decide)

/-- Claim C9: a chunk arriving mid-accumulation (offset positive, accumulator
active) that declares a total length different from the expected length is
not rejected: the accumulator is reset, re-prepared with the new declared
length and opcode, the chunk is copied at its offset, and received becomes
offset plus chunk length; the previous accumulation bookkeeping is discarded
(received restarts from this chunk alone) and no echo is produced while the
new message is incomplete. -/
theorem midstream_length_change_restart (s0 : WsState) (conn : Bool)
    (e : DataEvent) (sop : Nat)
    (hrun : s0.test_running = true) (hconn : conn = true)
    (hop : sendOpcodeFor e.op_code = some sop)
    (hptr : ¬(e.ptrNull = true ∧ 0 < e.chunk.length))
    (hact : s0.accum.active = true)
    (hoff : 0 < e.payload_offset)
    (hneq : totalLen e ≠ s0.accum.expected_len)
    (hsize : totalLen e ≤ MAX_FRAGMENTED_PAYLOAD)
    (hfit : e.payload_offset + e.chunk.length < totalLen e) :
    (handleDataEvent s0 conn e).2 = none ∧
    (handleDataEvent s0 conn e).1.accum =
      { bufferSet := true, capacity := MAX_FRAGMENTED_PAYLOAD,
        expected_len := totalLen e,
        received := e.payload_offset + e.chunk.length, opcode := sop,
        active := true } ∧
    (handleDataEvent s0 conn e).1.accumBufWrites =
      (e.payload_offset, e.chunk) :: s0.accumBufWrites := by
  have hop8 := sendOpcodeFor_some hop
  have hpos : 0 < totalLen e := by omega
  have ht0 : ¬ totalLen e = 0 := by omega
  have hfr : fragmented e ∧ 0 < totalLen e := ⟨Or.inr hoff, hpos⟩
  have hcap : e.payload_offset + e.chunk.length ≤ MAX_FRAGMENTED_PAYLOAD :=
    Nat.le_trans (Nat.le_of_lt hfit) hsize
  have hprep : ws_accumulator_prepare (wsReset { s0 with accumBufAlloc := true })
      (totalLen e) sop =
      (EspErr.ok,
        { test_running := s0.test_running,
          accum :=
            { bufferSet := true, capacity := MAX_FRAGMENTED_PAYLOAD,
              expected_len := totalLen e, received := 0, opcode := sop,
              active := true },
          accumBufAlloc := true, accumBufWrites := s0.accumBufWrites }) := by
    unfold ws_accumulator_prepare
    rw [if_neg ht0, if_neg (Nat.not_lt.mpr hsize)]
    rfl
  have hc1 : ¬(e.payload_offset = 0 ∨
      ({ s0 with accumBufAlloc := true } : WsState).accum.active = false) := by
    rintro (h | h)
    · omega
    · simp [hact] at h
  have hc2 : totalLen e ≠
      ({ s0 with accumBufAlloc := true } : WsState).accum.expected_len := hneq
  have hps : prepStep { s0 with accumBufAlloc := true } e (totalLen e) sop =
      ({ test_running := s0.test_running,
         accum :=
           { bufferSet := true, capacity := MAX_FRAGMENTED_PAYLOAD,
             expected_len := totalLen e, received := 0, opcode := sop,
             active := true },
         accumBufAlloc := true, accumBufWrites := s0.accumBufWrites }, true) := by
    unfold prepStep
    rw [if_neg hc1, if_pos hc2, hprep]
  have hfb : fragBlock { s0 with accumBufAlloc := true } e sop =
      ({ test_running := s0.test_running,
         accum :=
           { bufferSet := true, capacity := MAX_FRAGMENTED_PAYLOAD,
             expected_len := totalLen e,
             received := e.payload_offset + e.chunk.length, opcode := sop,
             active := true },
         accumBufAlloc := true,
         accumBufWrites := (e.payload_offset, e.chunk) :: s0.accumBufWrites },
        none) := by
    have hnc3 : ¬ MAX_FRAGMENTED_PAYLOAD < e.payload_offset + e.chunk.length :=
      Nat.not_lt.mpr hcap
    have hnc4 : ¬ totalLen e < e.payload_offset + e.chunk.length :=
      Nat.not_lt.mpr (Nat.le_of_lt hfit)
    unfold fragBlock
    rw [hps]
    simp [hptr, hnc3, hnc4, hfit]
  have hmain : handleDataEvent s0 conn e =
      ({ test_running := s0.test_running,
         accum :=
           { bufferSet := true, capacity := MAX_FRAGMENTED_PAYLOAD,
             expected_len := totalLen e,
             received := e.payload_offset + e.chunk.length, opcode := sop,
             active := true },
         accumBufAlloc := true,
         accumBufWrites := (e.payload_offset, e.chunk) :: s0.accumBufWrites },
        none) := by
    rw [hrun] at hfb
    simp [handleDataEvent, hrun, hconn, hop, hop8, hptr, hfr, hfb]
  rw [hmain]
  exact ⟨rfl, rfl, rfl⟩

/-- Claim C6 (amended): a chunk arriving at offset 0 while the accumulator is
already active preempts the in-flight accumulation: the accumulator is
re-prepared for the new message (new expected length and opcode) and received
counts only the new chunk, so the discarded partial accumulation never
contributes to the received count; stale bytes of the preempted message can
still surface in the delivered payload when the new chunks leave offset gaps,
because the reused buffer is not cleared. -/
theorem offset_zero_preemption_restarts (s0 : WsState) (conn : Bool)
    (e : DataEvent) (sop : Nat)
    (hrun : s0.test_running = true) (hconn : conn = true)
    (hop : sendOpcodeFor e.op_code = some sop)
    (hptr : ¬(e.ptrNull = true ∧ 0 < e.chunk.length))
    (hact : s0.accum.active = true)
    (hoff0 : e.payload_offset = 0)
    (hfrag : fragmented e)
    (hsize : totalLen e ≤ MAX_FRAGMENTED_PAYLOAD)
    (hlt : e.chunk.length < totalLen e) :
    (handleDataEvent s0 conn e).2 = none ∧
    (handleDataEvent s0 conn e).1.accum =
      { bufferSet := true, capacity := MAX_FRAGMENTED_PAYLOAD,
        expected_len := totalLen e, received := e.chunk.length, opcode := sop,
        active := true } ∧
    (handleDataEvent s0 conn e).1.accumBufWrites =
      (0, e.chunk) :: s0.accumBufWrites := by
  have hop8 := sendOpcodeFor_some hop
  have hpos : 0 < totalLen e := by omega
  have ht0 : ¬ totalLen e = 0 := by omega
  have hfr : fragmented e ∧ 0 < totalLen e := ⟨hfrag, hpos⟩
  have hcap : e.payload_offset + e.chunk.length ≤ MAX_FRAGMENTED_PAYLOAD := by
    rw [hoff0]
    exact Nat.le_trans (by omega) hsize
  have hprep : ws_accumulator_prepare { s0 with accumBufAlloc := true }
      (totalLen e) sop =
      (EspErr.ok,
        { test_running := s0.test_running,
          accum :=
            { bufferSet := true, capacity := MAX_FRAGMENTED_PAYLOAD,
              expected_len := totalLen e, received := 0, opcode := sop,
              active := true },
          accumBufAlloc := true, accumBufWrites := s0.accumBufWrites }) := by
    unfold ws_accumulator_prepare
    rw [if_neg ht0, if_neg (Nat.not_lt.mpr hsize)]
  have hps : prepStep { s0 with accumBufAlloc := true } e (totalLen e) sop =
      ({ test_running := s0.test_running,
         accum :=
           { bufferSet := true, capacity := MAX_FRAGMENTED_PAYLOAD,
             expected_len := totalLen e, received := 0, opcode := sop,
             active := true },
         accumBufAlloc := true, accumBufWrites := s0.accumBufWrites }, true) := by
    unfold prepStep
    rw [if_pos (Or.inl hoff0), hprep]
  have hfit : e.payload_offset + e.chunk.length < totalLen e := by
    rw [hoff0]; omega
  have hfb : fragBlock { s0 with accumBufAlloc := true } e sop =
      ({ test_running := s0.test_running,
         accum :=
           { bufferSet := true, capacity := MAX_FRAGMENTED_PAYLOAD,
             expected_len := totalLen e,
             received := e.payload_offset + e.chunk.length, opcode := sop,
             active := true },
         accumBufAlloc := true,
         accumBufWrites := (e.payload_offset, e.chunk) :: s0.accumBufWrites },
        none) := by
    have hnc3 : ¬ MAX_FRAGMENTED_PAYLOAD < e.payload_offset + e.chunk.length :=
      Nat.not_lt.mpr hcap
    have hnc4 : ¬ totalLen e < e.payload_offset + e.chunk.length :=
      Nat.not_lt.mpr (Nat.le_of_lt hfit)
    unfold fragBlock
    rw [hps]
    simp [hptr, hnc3, hnc4, hfit]
  have hmain : handleDataEvent s0 conn e =
      ({ test_running := s0.test_running,
         accum :=
           { bufferSet := true, capacity := MAX_FRAGMENTED_PAYLOAD,
             expected_len := totalLen e,
             received := e.payload_offset + e.chunk.length, opcode := sop,
             active := true },
         accumBufAlloc := true,
         accumBufWrites := (e.payload_offset, e.chunk) :: s0.accumBufWrites },
        none) := by
    rw [hrun] at hfb
    simp [handleDataEvent, hrun, hconn, hop, hop8, hptr, hfr, hfb]
  rw [hmain]
  refine ⟨rfl, ?_, ?_⟩
  · rw [hoff0]; simp
  · rw [hoff0]

/-- Claim C6 counterexample: an 8 byte message of 0xAA bytes is half
accumulated; an offset 0 chunk (0xBB bytes) preempts it; a gap-leaving chunk
(0xCC bytes at offset 6) then completes the new message. The delivered
payload contains 0xAA bytes at indices 2 and 3 — bytes copied during the
preempted accumulation, present in no chunk of the new message — so the
claim that previous partial bytes are never merged into the new message is
false. -/
theorem offset_zero_stale_bytes_counterexample :
    (runEvents initState
        [WsEvent.connected, WsEvent.data true staleSetup,
          WsEvent.data true stalePreempt, WsEvent.data true staleFinish]).2 =
      [{ opcode := 2, payload := [187, 187, 170, 170, 0, 0, 204, 204] }] ∧
    (170 ∈ stalePreempt.chunk ++ staleFinish.chunk) = False ∧
    170 ∈ staleSetup.chunk := by
  refine ⟨by decide, by decide, by decide⟩

/-- Claim C9 witness at a concrete input. -/
theorem midstream_length_change_restart_witness :
    (handleDataEvent midAccumState true lengthChangeChunk).2 = none ∧
    (handleDataEvent midAccumState true lengthChangeChunk).1.accum =
      { bufferSet := true, capacity := MAX_FRAGMENTED_PAYLOAD,
        expected_len := totalLen lengthChangeChunk,
        received := lengthChangeChunk.payload_offset + lengthChangeChunk.chunk.length,
        opcode := 2, active := true } ∧
    (handleDataEvent midAccumState true lengthChangeChunk).1.accumBufWrites =
      (lengthChangeChunk.payload_offset, lengthChangeChunk.chunk) ::
        midAccumState.accumBufWrites :=
  midstream_length_change_restart midAccumState true lengthChangeChunk 2
    (by decide) (by decide) (by decide) (by decide) (by decide) (by decide)
    (by decide) (by decide) (by decide)

/-- Claim C6 witness at a concrete input. -/
theorem offset_zero_preemption_restarts_witness :
    (handleDataEvent midAccumState true preemptChunk).2 = none ∧
    (handleDataEvent midAccumState true preemptChunk).1.accum =
      { bufferSet := true, capacity := MAX_FRAGMENTED_PAYLOAD,
        expected_len := totalLen preemptChunk,
        received := preemptChunk.chunk.length, opcode := 2, active := true } ∧
    (handleDataEvent midAccumState true preemptChunk).1.accumBufWrites =
      (0, preemptChunk.chunk) :: midAccumState.accumBufWrites :=
  offset_zero_preemption_restarts midAccumState true preemptChunk 2
    (by decide) (by decide) (by decide) (by decide) (by decide) (by decide)
    (by decide) (by decide) (by decide)

/-- prepStep never writes into the reassembly buffer. -/
theorem prepStep_writes (s : WsState) (e : DataEvent) (t sop : Nat) :
    ((prepStep s e t sop).1).accumBufWrites = s.accumBufWrites := by
  unfold prepStep
  split_ifs with h1 h2
  · rcases ws_accumulator_prepare_cases s t sop with ⟨_, hp⟩ | ⟨_, hp⟩ | ⟨_, _, hp⟩ <;>
      rw [hp]
  · rcases ws_accumulator_prepare_cases (wsReset s) t sop with ⟨_, hp⟩ | ⟨_, hp⟩ | ⟨_, _, hp⟩ <;>
      rw [hp] <;> rfl
  · rfl

/-- Every memcpy the fragment block performs is bounds checked: either the
buffer is untouched, or exactly the current chunk was written at its offset
and offset plus length is within both the expected length and the capacity
of the accumulator that performed the copy. -/
theorem fragBlock_copy_bounds (s1 : WsState) (e : DataEvent) (sop : Nat) :
    (fragBlock s1 e sop).1.accumBufWrites = s1.accumBufWrites ∨
    ((fragBlock s1 e sop).1.accumBufWrites =
        (e.payload_offset, e.chunk) :: s1.accumBufWrites ∧
      e.payload_offset + e.chunk.length ≤ (fragBlock s1 e sop).1.accum.expected_len ∧
      e.payload_offset + e.chunk.length ≤ (fragBlock s1 e sop).1.accum.capacity) := by
  rcases hps : prepStep s1 e (totalLen e) sop with ⟨s2, b⟩
  have hw : s2.accumBufWrites = s1.accumBufWrites := by
    have h := prepStep_writes s1 e (totalLen e) sop
    rw [hps] at h
    exact h
  cases b
  · unfold fragBlock
    rw [hps]
    exact Or.inl hw
  · have hfb0 : fragBlock s1 e sop =
        (if s2.accum.active = false ∨ s2.accum.bufferSet = false then (wsReset s2, none)
         else if e.ptrNull = true ∧ 0 < e.chunk.length then (wsReset s2, none)
         else if s2.accum.capacity < e.payload_offset + e.chunk.length then (wsReset s2, none)
         else if s2.accum.expected_len < e.payload_offset + e.chunk.length then (wsReset s2, none)
         else if s2.accum.bufferSet = false then (wsReset s2, none)
         else if e.payload_offset + e.chunk.length < s2.accum.expected_len then
           ({ s2 with
              accumBufWrites := (e.payload_offset, e.chunk) :: s2.accumBufWrites,
              accum := { s2.accum with received := e.payload_offset + e.chunk.length } },
             none)
         else
           ({ s2 with
              accumBufWrites := (e.payload_offset, e.chunk) :: s2.accumBufWrites,
              accum :=
                { s2.accum with
                  received := e.payload_offset + e.chunk.length,
                  active := false } },
             some (accumPayload
               { s2 with
                 accumBufWrites := (e.payload_offset, e.chunk) :: s2.accumBufWrites,
                 accum :=
                   { s2.accum with
                     received := e.payload_offset + e.chunk.length } },
               s2.accum.opcode))) := by
      unfold fragBlock
      rw [hps]
    rw [hfb0]
    split_ifs with h1 h2 h3 h4 h5 h6
    · exact Or.inl hw
    · exact Or.inl hw
    · exact Or.inl hw
    · exact Or.inl hw
    · exact Or.inl hw
    · exact Or.inr ⟨by rw [hw], Nat.not_lt.mp h4, Nat.not_lt.mp h3⟩
    · exact Or.inr ⟨by rw [hw], Nat.not_lt.mp h4, Nat.not_lt.mp h3⟩

/-- Every memcpy the data handler performs is bounds checked (lifting
fragBlock_copy_bounds through the surrounding handler). -/
theorem handleData_copy_bounds (t0 : WsState) (dconn : Bool) (d : DataEvent) :
    (handleDataEvent t0 dconn d).1.accumBufWrites = t0.accumBufWrites ∨
    ((handleDataEvent t0 dconn d).1.accumBufWrites =
        (d.payload_offset, d.chunk) :: t0.accumBufWrites ∧
      d.payload_offset + d.chunk.length ≤
        (handleDataEvent t0 dconn d).1.accum.expected_len ∧
      d.payload_offset + d.chunk.length ≤
        (handleDataEvent t0 dconn d).1.accum.capacity) := by
  by_cases hg1 : t0.test_running = false ∨ dconn = false
  · refine Or.inl ?_
    unfold handleDataEvent
    rw [if_pos hg1]
    rfl
  · have hdc : ¬ dconn = false := fun h => hg1 (Or.inr h)
    by_cases hg2 : 8 ≤ d.op_code
    · refine Or.inl ?_
      unfold handleDataEvent
      rw [if_neg hg1, if_pos hg2]
    · rcases hso : sendOpcodeFor d.op_code with _ | sop
      · refine Or.inl ?_
        have hmain : handleDataEvent t0 dconn d = (t0, none) := by
          simp only [handleDataEvent, hso, if_neg hg1, if_neg hg2]
        rw [hmain]
      · by_cases hp : d.ptrNull = true ∧ 0 < d.chunk.length
        · refine Or.inl ?_
          have hmain : handleDataEvent t0 dconn d = (t0, none) := by
            simp only [handleDataEvent, hso, if_neg hg1, if_neg hg2, if_pos hp]
          rw [hmain]
        · by_cases hfg : fragmented d ∧ 0 < totalLen d
          · rcases hfbv : fragBlock { t0 with accumBufAlloc := true } d sop with ⟨s1, eo⟩
            have hb := fragBlock_copy_bounds { t0 with accumBufAlloc := true } d sop
            rw [hfbv] at hb
            cases eo with
            | none =>
              have hmain : handleDataEvent t0 dconn d = (s1, none) := by
                simp only [handleDataEvent, hso, if_neg hg1, if_neg hg2, if_neg hp,
                  if_pos hfg, hfbv]
              rw [hmain]
              exact hb
            | some pr =>
              rcases pr with ⟨payload, sop2⟩
              have hmain : handleDataEvent t0 dconn d =
                  (s1, some { opcode := sop2, payload := payload }) := by
                simp only [handleDataEvent, hso, if_neg hg1, if_neg hg2, if_neg hp,
                  if_pos hfg, hfbv, if_neg hdc]
              rw [hmain]
              exact hb
          · refine Or.inl ?_
            have hmain : handleDataEvent t0 dconn d =
                (t0, some { opcode := sop, payload := d.chunk }) := by
              simp only [handleDataEvent, hso, if_neg hg1, if_neg hg2, if_neg hp,
                if_neg hfg, if_neg hdc]
            rw [hmain]

/-- Claim C3: a continuation chunk of the active accumulation (positive
offset, matching declared total) whose offset plus length exceeds the
capacity or the previously declared expected length is rejected with no byte
copied and the accumulator reset; and, in general, every copy the handler
performs into the reassembly buffer is bounds checked to stay within the
governing expected length and capacity. -/
theorem chunk_bounds_enforced (s0 : WsState) (conn : Bool) (e : DataEvent)
    (sop : Nat) (t0 : WsState) (dconn : Bool) (d : DataEvent)
    (hrun : s0.test_running = true) (hconn : conn = true)
    (hop : sendOpcodeFor e.op_code = some sop)
    (hptr : ¬(e.ptrNull = true ∧ 0 < e.chunk.length))
    (hact : s0.accum.active = true)
    (hoff : 0 < e.payload_offset)
    (heq : totalLen e = s0.accum.expected_len)
    (hpos : 0 < s0.accum.expected_len)
    (hover : s0.accum.capacity < e.payload_offset + e.chunk.length ∨
      s0.accum.expected_len < e.payload_offset + e.chunk.length) :
    ((handleDataEvent s0 conn e).2 = none ∧
      (handleDataEvent s0 conn e).1.accumBufWrites = s0.accumBufWrites ∧
      (handleDataEvent s0 conn e).1.accum = ws_accumulator_reset s0.accum) ∧
    ((handleDataEvent t0 dconn d).1.accumBufWrites = t0.accumBufWrites ∨
      ((handleDataEvent t0 dconn d).1.accumBufWrites =
          (d.payload_offset, d.chunk) :: t0.accumBufWrites ∧
        d.payload_offset + d.chunk.length ≤
          (handleDataEvent t0 dconn d).1.accum.expected_len ∧
        d.payload_offset + d.chunk.length ≤
          (handleDataEvent t0 dconn d).1.accum.capacity)) := by
  refine ⟨?_, handleData_copy_bounds t0 dconn d⟩
  have hop8 := sendOpcodeFor_some hop
  have hposT : 0 < totalLen e := by rw [heq]; exact hpos
  have hfr : fragmented e ∧ 0 < totalLen e := ⟨Or.inr hoff, hposT⟩
  have hc1 : ¬(e.payload_offset = 0 ∨
      ({ s0 with accumBufAlloc := true } : WsState).accum.active = false) := by
    rintro (h | h)
    · omega
    · simp [hact] at h
  have hps : prepStep { s0 with accumBufAlloc := true } e (totalLen e) sop =
      ({ s0 with accumBufAlloc := true }, true) := by
    unfold prepStep
    rw [if_neg hc1, if_neg (fun h => h heq)]
  have hfb : fragBlock { s0 with accumBufAlloc := true } e sop =
      (wsReset { s0 with accumBufAlloc := true }, none) := by
    unfold fragBlock
    rw [hps]
    by_cases hbs : s0.accum.bufferSet = false
    · simp [hbs]
    · have hbs2 : s0.accum.bufferSet = true := by
        cases hb : s0.accum.bufferSet
        · exact absurd hb hbs
        · rfl
      rcases hover with hcapc | hexpc
      · simp [hact, hbs2, hptr, hcapc]
      · by_cases hcapc : s0.accum.capacity < e.payload_offset + e.chunk.length
        · simp [hact, hbs2, hptr, hcapc]
        · simp [hact, hbs2, hptr, hcapc, hexpc]
  have hmain : handleDataEvent s0 conn e =
      (wsReset { s0 with accumBufAlloc := true }, none) := by
    rw [hrun] at hfb
    simp [handleDataEvent, hrun, hconn, hop, hop8, hptr, hfr, hfb]
  rw [hmain]
  exact ⟨rfl, rfl, rfl⟩

/-- Claim C3 witness at a concrete input: a chunk reaching past the declared
total is rejected and the accumulator reset, while an in-bounds chunk is
copied within bounds. -/
theorem chunk_bounds_enforced_witness :
    ((handleDataEvent midAccumState true overflowChunk).2 = none ∧
      (handleDataEvent midAccumState true overflowChunk).1.accumBufWrites =
        midAccumState.accumBufWrites ∧
      (handleDataEvent midAccumState true overflowChunk).1.accum =
        ws_accumulator_reset midAccumState.accum) ∧
    ((handleDataEvent midAccumState true inBoundsChunk).1.accumBufWrites =
        midAccumState.accumBufWrites ∨
      ((handleDataEvent midAccumState true inBoundsChunk).1.accumBufWrites =
          (inBoundsChunk.payload_offset, inBoundsChunk.chunk) ::
            midAccumState.accumBufWrites ∧
        inBoundsChunk.payload_offset + inBoundsChunk.chunk.length ≤
          (handleDataEvent midAccumState true inBoundsChunk).1.accum.expected_len ∧
        inBoundsChunk.payload_offset + inBoundsChunk.chunk.length ≤
          (handleDataEvent midAccumState true inBoundsChunk).1.accum.capacity)) :=
  chunk_bounds_enforced midAccumState true overflowChunk 0 midAccumState true
    inBoundsChunk (by decide) (by decide) (by decide) (by decide) (by decide)
    (by decide) (by decide) (by decide) (by decide)

/-- The list of writes never equals a cons of itself. -/
theorem writes_ne_cons (l : List (Nat × List Nat)) (p : Nat × List Nat) :
    ¬ l = p :: l := by
  intro h
  have h2 := congrArg List.length h
  simp only [List.length_cons] at h2
  omega

/-- When prepStep succeeds, fragBlock is the validity-check and copy chain
over the prepared state. -/
theorem fragBlock_eq_of_prepStep_true (s1in : WsState) (e : DataEvent)
    (sop : Nat) (s2 : WsState)
    (hps : prepStep s1in e (totalLen e) sop = (s2, true)) :
    fragBlock s1in e sop =
      (if s2.accum.active = false ∨ s2.accum.bufferSet = false then (wsReset s2, none)
       else if e.ptrNull = true ∧ 0 < e.chunk.length then (wsReset s2, none)
       else if s2.accum.capacity < e.payload_offset + e.chunk.length then (wsReset s2, none)
       else if s2.accum.expected_len < e.payload_offset + e.chunk.length then (wsReset s2, none)
       else if s2.accum.bufferSet = false then (wsReset s2, none)
       else if e.payload_offset + e.chunk.length < s2.accum.expected_len then
         (copyState s2 e, none)
       else
         (completeState s2 e,
           some (accumPayload (copyState s2 e), s2.accum.opcode))) := by
  unfold fragBlock
  rw [hps]
  rfl

/-- If fragBlock performed the copy of this chunk, then received became
offset plus chunk length (bounded by the expected length), and the block
completed with the reassembled payload and recorded opcode exactly when
received reached the expected length. -/
theorem fragBlock_completion (s1in : WsState) (e : DataEvent) (sop : Nat)
    (s1 : WsState) (eo : Option (List Nat × Nat))
    (hfb : fragBlock s1in e sop = (s1, eo))
    (hcopy : s1.accumBufWrites = (e.payload_offset, e.chunk) :: s1in.accumBufWrites) :
    s1.accum.received = e.payload_offset + e.chunk.length ∧
    s1.accum.received ≤ s1.accum.expected_len ∧
    ((s1.accum.received < s1.accum.expected_len ∧ eo = none ∧
        s1.accum.active = true) ∨
      (s1.accum.received = s1.accum.expected_len ∧ s1.accum.active = false ∧
        eo = some ((List.range s1.accum.expected_len).map
            (writesGet s1.accumBufWrites), s1.accum.opcode))) := by
  rcases hps : prepStep s1in e (totalLen e) sop with ⟨s2, b⟩
  have hw : s2.accumBufWrites = s1in.accumBufWrites := by
    have hx := prepStep_writes s1in e (totalLen e) sop
    rw [hps] at hx
    exact hx
  cases b
  · unfold fragBlock at hfb
    rw [hps] at hfb
    injection hfb with hA hB
    exfalso
    apply writes_ne_cons s1in.accumBufWrites (e.payload_offset, e.chunk)
    calc s1in.accumBufWrites = s2.accumBufWrites := hw.symm
      _ = s1.accumBufWrites := by rw [hA]
      _ = (e.payload_offset, e.chunk) :: s1in.accumBufWrites := hcopy
  · rw [fragBlock_eq_of_prepStep_true s1in e sop s2 hps] at hfb
    have hactive : ¬(s2.accum.active = false ∨ s2.accum.bufferSet = false) →
        s2.accum.active = true := by
      intro hn
      cases hv : s2.accum.active
      · exact absurd (Or.inl hv) hn
      · rfl
    split_ifs at hfb with h1 h2 h3 h4 h5 h6
    · injection hfb with hA hB
      exfalso
      apply writes_ne_cons s1in.accumBufWrites (e.payload_offset, e.chunk)
      rw [← hw]
      show s2.accumBufWrites = _
      calc s2.accumBufWrites = (wsReset s2).accumBufWrites := rfl
        _ = s1.accumBufWrites := by rw [hA]
        _ = (e.payload_offset, e.chunk) :: s1in.accumBufWrites := hcopy
        _ = (e.payload_offset, e.chunk) :: s2.accumBufWrites := by rw [← hw]
    · injection hfb with hA hB
      exfalso
      apply writes_ne_cons s2.accumBufWrites (e.payload_offset, e.chunk)
      calc s2.accumBufWrites = (wsReset s2).accumBufWrites := rfl
        _ = s1.accumBufWrites := by rw [hA]
        _ = (e.payload_offset, e.chunk) :: s1in.accumBufWrites := hcopy
        _ = (e.payload_offset, e.chunk) :: s2.accumBufWrites := by rw [← hw]
    · injection hfb with hA hB
      exfalso
      apply writes_ne_cons s2.accumBufWrites (e.payload_offset, e.chunk)
      calc s2.accumBufWrites = (wsReset s2).accumBufWrites := rfl
        _ = s1.accumBufWrites := by rw [hA]
        _ = (e.payload_offset, e.chunk) :: s1in.accumBufWrites := hcopy
        _ = (e.payload_offset, e.chunk) :: s2.accumBufWrites := by rw [← hw]
    · injection hfb with hA hB
      exfalso
      apply writes_ne_cons s2.accumBufWrites (e.payload_offset, e.chunk)
      calc s2.accumBufWrites = (wsReset s2).accumBufWrites := rfl
        _ = s1.accumBufWrites := by rw [hA]
        _ = (e.payload_offset, e.chunk) :: s1in.accumBufWrites := hcopy
        _ = (e.payload_offset, e.chunk) :: s2.accumBufWrites := by rw [← hw]
    · injection hfb with hA hB
      exfalso
      apply writes_ne_cons s2.accumBufWrites (e.payload_offset, e.chunk)
      calc s2.accumBufWrites = (wsReset s2).accumBufWrites := rfl
        _ = s1.accumBufWrites := by rw [hA]
        _ = (e.payload_offset, e.chunk) :: s1in.accumBufWrites := hcopy
        _ = (e.payload_offset, e.chunk) :: s2.accumBufWrites := by rw [← hw]
    · injection hfb with hA hB
      subst hA
      subst hB
      refine ⟨rfl, Nat.not_lt.mp h4, Or.inl ⟨h6, rfl, ?_⟩⟩
      exact hactive h1
    · injection hfb with hA hB
      subst hA
      subst hB
      have hrecv : (completeState s2 e).accum.received =
          (completeState s2 e).accum.expected_len := by
        show e.payload_offset + e.chunk.length = s2.accum.expected_len
        have ha := Nat.not_lt.mp h4
        have hb := Nat.not_lt.mp h6
        omega
      refine ⟨rfl, Nat.le_of_eq hrecv, Or.inr ⟨hrecv, rfl, rfl⟩⟩

/-- Claim C4: whenever the handler copies a chunk into the accumulator (the
buffer gained exactly this chunk at its offset), the message is handed to the
echo path exactly when the received count equals the declared expected
length; at that point the delivered payload is the accumulator contents of
that length and the delivered opcode is the accumulator's recorded opcode
(written only when accumulation begins), and no echo occurs while received is
below expected. -/
theorem completion_handoff (s0 : WsState) (conn : Bool) (e : DataEvent)
    (sFin : WsState) (echo : Option Echo)
    (h : handleDataEvent s0 conn e = (sFin, echo))
    (hcopy : sFin.accumBufWrites = (e.payload_offset, e.chunk) :: s0.accumBufWrites) :
    sFin.accum.received = e.payload_offset + e.chunk.length ∧
    sFin.accum.received ≤ sFin.accum.expected_len ∧
    ((sFin.accum.received < sFin.accum.expected_len ∧ echo = none ∧
        sFin.accum.active = true) ∨
      (sFin.accum.received = sFin.accum.expected_len ∧
        sFin.accum.active = false ∧
        echo = some
          { opcode := sFin.accum.opcode,
            payload := (List.range sFin.accum.expected_len).map
              (writesGet sFin.accumBufWrites) } ∧
        ((List.range sFin.accum.expected_len).map
            (writesGet sFin.accumBufWrites)).length = sFin.accum.expected_len)) := by
  by_cases hg1 : s0.test_running = false ∨ conn = false
  · exfalso
    have hmain : handleDataEvent s0 conn e = (wsReset s0, none) := by
      unfold handleDataEvent
      rw [if_pos hg1]
    rw [hmain] at h
    injection h with hA hB
    apply writes_ne_cons s0.accumBufWrites (e.payload_offset, e.chunk)
    calc s0.accumBufWrites = (wsReset s0).accumBufWrites := rfl
      _ = sFin.accumBufWrites := by rw [hA]
      _ = (e.payload_offset, e.chunk) :: s0.accumBufWrites := hcopy
  · have hdc : ¬ conn = false := fun hx => hg1 (Or.inr hx)
    by_cases hg2 : 8 ≤ e.op_code
    · exfalso
      have hmain : handleDataEvent s0 conn e = (s0, none) := by
        unfold handleDataEvent
        rw [if_neg hg1, if_pos hg2]
      rw [hmain] at h
      injection h with hA hB
      apply writes_ne_cons s0.accumBufWrites (e.payload_offset, e.chunk)
      calc s0.accumBufWrites = sFin.accumBufWrites := by rw [hA]
        _ = (e.payload_offset, e.chunk) :: s0.accumBufWrites := hcopy
    · rcases hso : sendOpcodeFor e.op_code with _ | sop
      · exfalso
        have hmain : handleDataEvent s0 conn e = (s0, none) := by
          simp only [handleDataEvent, hso, if_neg hg1, if_neg hg2]
        rw [hmain] at h
        injection h with hA hB
        apply writes_ne_cons s0.accumBufWrites (e.payload_offset, e.chunk)
        calc s0.accumBufWrites = sFin.accumBufWrites := by rw [hA]
          _ = (e.payload_offset, e.chunk) :: s0.accumBufWrites := hcopy
      · by_cases hp : e.ptrNull = true ∧ 0 < e.chunk.length
        · exfalso
          have hmain : handleDataEvent s0 conn e = (s0, none) := by
            simp only [handleDataEvent, hso, if_neg hg1, if_neg hg2, if_pos hp]
          rw [hmain] at h
          injection h with hA hB
          apply writes_ne_cons s0.accumBufWrites (e.payload_offset, e.chunk)
          calc s0.accumBufWrites = sFin.accumBufWrites := by rw [hA]
            _ = (e.payload_offset, e.chunk) :: s0.accumBufWrites := hcopy
        · by_cases hfg : fragmented e ∧ 0 < totalLen e
          · rcases hfbv : fragBlock { s0 with accumBufAlloc := true } e sop with ⟨s1, eo⟩
            cases eo with
            | none =>
              have hmain : handleDataEvent s0 conn e = (s1, none) := by
                simp only [handleDataEvent, hso, if_neg hg1, if_neg hg2, if_neg hp,
                  if_pos hfg, hfbv]
              rw [hmain] at h
              injection h with hA hB
              subst hA
              subst hB
              have hc := fragBlock_completion { s0 with accumBufAlloc := true } e sop
                s1 none hfbv hcopy
              rcases hc with ⟨hr1, hr2, hr3⟩
              refine ⟨hr1, hr2, ?_⟩
              rcases hr3 with ⟨ha2, _, hc3⟩ | ⟨_, _, hc2⟩
              · exact Or.inl ⟨ha2, rfl, hc3⟩
              · exact absurd hc2 (by simp)
            | some pr =>
              rcases pr with ⟨payload, sop2⟩
              have hmain : handleDataEvent s0 conn e =
                  (s1, some { opcode := sop2, payload := payload }) := by
                simp only [handleDataEvent, hso, if_neg hg1, if_neg hg2, if_neg hp,
                  if_pos hfg, hfbv, if_neg hdc]
              rw [hmain] at h
              injection h with hA hB
              subst hA
              subst hB
              have hc := fragBlock_completion { s0 with accumBufAlloc := true } e sop
                s1 (some (payload, sop2)) hfbv hcopy
              rcases hc with ⟨hr1, hr2, hr3⟩
              refine ⟨hr1, hr2, ?_⟩
              rcases hr3 with ⟨_, hb2, _⟩ | ⟨ha2, hb2, hc2⟩
              · exact absurd hb2 (by simp)
              · injection hc2 with hc3
                injection hc3 with hpay hopc
                refine Or.inr ⟨ha2, hb2, ?_, by simp⟩
                rw [hpay, hopc]
          · exfalso
            have hmain : handleDataEvent s0 conn e =
                (s0, some { opcode := sop, payload := e.chunk }) := by
              simp only [handleDataEvent, hso, if_neg hg1, if_neg hg2, if_neg hp,
                if_neg hfg, if_neg hdc]
            rw [hmain] at h
            injection h with hA hB
            apply writes_ne_cons s0.accumBufWrites (e.payload_offset, e.chunk)
            calc s0.accumBufWrites = sFin.accumBufWrites := by rw [hA]
              _ = (e.payload_offset, e.chunk) :: s0.accumBufWrites := hcopy

/-- Claim C4 witness at a concrete input: the chunk completing an 8 byte
message triggers exactly one hand-off with the reassembled payload and the
recorded opcode. -/
theorem completion_handoff_witness :
    completedState.accum.received =
      completingChunk.payload_offset + completingChunk.chunk.length ∧
    completedState.accum.received ≤ completedState.accum.expected_len ∧
    ((completedState.accum.received < completedState.accum.expected_len ∧
        (some { opcode := 2, payload := [1, 2, 3, 4, 5, 6, 7, 8] } : Option Echo) =
          none ∧
        completedState.accum.active = true) ∨
      (completedState.accum.received = completedState.accum.expected_len ∧
        completedState.accum.active = false ∧
        (some { opcode := 2, payload := [1, 2, 3, 4, 5, 6, 7, 8] } : Option Echo) =
          some
            { opcode := completedState.accum.opcode,
              payload := (List.range completedState.accum.expected_len).map
                (writesGet completedState.accumBufWrites) } ∧
        ((List.range completedState.accum.expected_len).map
            (writesGet completedState.accumBufWrites)).length =
          completedState.accum.expected_len)) :=
  completion_handoff midAccumState true completingChunk completedState
    (some { opcode := 2, payload := [1, 2, 3, 4, 5, 6, 7, 8] }) (by decide)
    (by decide)

/-- The reset accumulator satisfies the bookkeeping invariant. -/
theorem accInv_reset (a : Accumulator) : accInv (ws_accumulator_reset a) :=
  ⟨Nat.le_refl 0, Nat.zero_le _⟩

/-- prepStep preserves the accumulator invariant. -/
theorem prepStep_accInv (s : WsState) (e : DataEvent) (t sop : Nat)
    (h : accInv s.accum) : accInv ((prepStep s e t sop).1).accum := by
  unfold prepStep
  split_ifs with h1 h2
  · rcases ws_accumulator_prepare_cases s t sop with ⟨_, hp⟩ | ⟨_, hp⟩ | ⟨_, ht2, hp⟩
    · rw [hp]; exact h
    · rw [hp]; exact h
    · rw [hp]; exact ⟨Nat.zero_le _, ht2⟩
  · rcases ws_accumulator_prepare_cases (wsReset s) t sop with ⟨_, hp⟩ | ⟨_, hp⟩ | ⟨_, ht2, hp⟩
    · rw [hp]; exact accInv_reset _
    · rw [hp]; exact accInv_reset _
    · rw [hp]; exact ⟨Nat.zero_le _, ht2⟩
  · exact h

/-- fragBlock preserves the accumulator invariant. -/
theorem fragBlock_accInv (s1 : WsState) (e : DataEvent) (sop : Nat)
    (h : accInv s1.accum) : accInv ((fragBlock s1 e sop).1).accum := by
  rcases hps : prepStep s1 e (totalLen e) sop with ⟨s2, b⟩
  have h2 : accInv s2.accum := by
    have hx := prepStep_accInv s1 e (totalLen e) sop h
    rw [hps] at hx
    exact hx
  cases b
  · unfold fragBlock
    rw [hps]
    exact h2
  · rw [fragBlock_eq_of_prepStep_true s1 e sop s2 hps]
    split_ifs with h1 hc2 h3 h4 h5 h6
    · exact accInv_reset _
    · exact accInv_reset _
    · exact accInv_reset _
    · exact accInv_reset _
    · exact accInv_reset _
    · exact ⟨Nat.not_lt.mp h4, h2.2⟩
    · exact ⟨Nat.not_lt.mp h4, h2.2⟩

/-- The data handler preserves the accumulator invariant. -/
theorem handleData_accInv (s0 : WsState) (conn : Bool) (e : DataEvent)
    (h : accInv s0.accum) : accInv ((handleDataEvent s0 conn e).1).accum := by
  by_cases hg1 : s0.test_running = false ∨ conn = false
  · have hmain : handleDataEvent s0 conn e = (wsReset s0, none) := by
      unfold handleDataEvent
      rw [if_pos hg1]
    rw [hmain]
    exact accInv_reset _
  · have hdc : ¬ conn = false := fun hx => hg1 (Or.inr hx)
    by_cases hg2 : 8 ≤ e.op_code
    · have hmain : handleDataEvent s0 conn e = (s0, none) := by
        unfold handleDataEvent
        rw [if_neg hg1, if_pos hg2]
      rw [hmain]
      exact h
    · rcases hso : sendOpcodeFor e.op_code with _ | sop
      · have hmain : handleDataEvent s0 conn e = (s0, none) := by
          simp only [handleDataEvent, hso, if_neg hg1, if_neg hg2]
        rw [hmain]
        exact h
      · by_cases hp : e.ptrNull = true ∧ 0 < e.chunk.length
        · have hmain : handleDataEvent s0 conn e = (s0, none) := by
            simp only [handleDataEvent, hso, if_neg hg1, if_neg hg2, if_pos hp]
          rw [hmain]
          exact h
        · by_cases hfg : fragmented e ∧ 0 < totalLen e
          · rcases hfbv : fragBlock { s0 with accumBufAlloc := true } e sop with ⟨s1, eo⟩
            have hinv : accInv s1.accum := by
              have hx := fragBlock_accInv { s0 with accumBufAlloc := true } e sop h
              rw [hfbv] at hx
              exact hx
            cases eo with
            | none =>
              have hmain : handleDataEvent s0 conn e = (s1, none) := by
                simp only [handleDataEvent, hso, if_neg hg1, if_neg hg2, if_neg hp,
                  if_pos hfg, hfbv]
              rw [hmain]
              exact hinv
            | some pr =>
              rcases pr with ⟨payload, sop2⟩
              have hmain : handleDataEvent s0 conn e =
                  (s1, some { opcode := sop2, payload := payload }) := by
                simp only [handleDataEvent, hso, if_neg hg1, if_neg hg2, if_neg hp,
                  if_pos hfg, hfbv, if_neg hdc]
              rw [hmain]
              exact hinv
          · have hmain : handleDataEvent s0 conn e =
                (s0, some { opcode := sop, payload := e.chunk }) := by
              simp only [handleDataEvent, hso, if_neg hg1, if_neg hg2, if_neg hp,
                if_neg hfg, if_neg hdc]
            rw [hmain]
            exact h

/-- The accumulator can become active only through the fragment accumulation
path of a data event. -/
theorem handleData_activation (s0 : WsState) (conn : Bool) (e : DataEvent) :
    ((handleDataEvent s0 conn e).1).accum.active = false ∨
    s0.accum.active = true ∨ (fragmented e ∧ 0 < totalLen e) := by
  by_cases hg1 : s0.test_running = false ∨ conn = false
  · have hmain : handleDataEvent s0 conn e = (wsReset s0, none) := by
      unfold handleDataEvent
      rw [if_pos hg1]
    rw [hmain]
    exact Or.inl rfl
  · have hdc : ¬ conn = false := fun hx => hg1 (Or.inr hx)
    by_cases hg2 : 8 ≤ e.op_code
    · have hmain : handleDataEvent s0 conn e = (s0, none) := by
        unfold handleDataEvent
        rw [if_neg hg1, if_pos hg2]
      rw [hmain]
      cases hv : s0.accum.active
      · exact Or.inl rfl
      · exact Or.inr (Or.inl rfl)
    · rcases hso : sendOpcodeFor e.op_code with _ | sop
      · have hmain : handleDataEvent s0 conn e = (s0, none) := by
          simp only [handleDataEvent, hso, if_neg hg1, if_neg hg2]
        rw [hmain]
        cases hv : s0.accum.active
        · exact Or.inl rfl
        · exact Or.inr (Or.inl rfl)
      · by_cases hp : e.ptrNull = true ∧ 0 < e.chunk.length
        · have hmain : handleDataEvent s0 conn e = (s0, none) := by
            simp only [handleDataEvent, hso, if_neg hg1, if_neg hg2, if_pos hp]
          rw [hmain]
          cases hv : s0.accum.active
          · exact Or.inl rfl
          · exact Or.inr (Or.inl rfl)
        · by_cases hfg : fragmented e ∧ 0 < totalLen e
          · exact Or.inr (Or.inr hfg)
          · have hmain : handleDataEvent s0 conn e =
                (s0, some { opcode := sop, payload := e.chunk }) := by
              simp only [handleDataEvent, hso, if_neg hg1, if_neg hg2, if_neg hp,
                if_neg hfg, if_neg hdc]
            rw [hmain]
            cases hv : s0.accum.active
            · exact Or.inl rfl
            · exact Or.inr (Or.inl rfl)

/-- A prepStep that breaks out (prepare failed) left the accumulator either
untouched or reset. -/
theorem prepStep_false_shape (s : WsState) (e : DataEvent) (t sop : Nat)
    (s2 : WsState) (h : prepStep s e t sop = (s2, false)) :
    s2.accum = s.accum ∨ s2.accum.active = false := by
  unfold prepStep at h
  split_ifs at h with h1 h2
  · rcases ws_accumulator_prepare_cases s t sop with ⟨_, hp⟩ | ⟨_, hp⟩ | ⟨_, _, hp⟩ <;>
      rw [hp] at h
    · injection h with hA hB
      exact Bool.noConfusion hB
    · injection h with hA hB
      exact Or.inl (by rw [← hA])
    · injection h with hA hB
      exact Bool.noConfusion hB
  · rcases ws_accumulator_prepare_cases (wsReset s) t sop with ⟨_, hp⟩ | ⟨_, hp⟩ | ⟨_, _, hp⟩ <;>
      rw [hp] at h
    · injection h with hA hB
      exact Bool.noConfusion hB
    · injection h with hA hB
      exact Or.inr (by rw [← hA]; rfl)
    · injection h with hA hB
      exact Bool.noConfusion hB
  · injection h with hA hB
    exact Bool.noConfusion hB

/-- When fragBlock hands a completed message on, it has deactivated the
accumulator. -/
theorem fragBlock_some_inactive (s1in : WsState) (e : DataEvent) (sop : Nat)
    (s1 : WsState) (pr : List Nat × Nat)
    (h : fragBlock s1in e sop = (s1, some pr)) : s1.accum.active = false := by
  rcases hps : prepStep s1in e (totalLen e) sop with ⟨s2, b⟩
  cases b
  · unfold fragBlock at h
    rw [hps] at h
    injection h with hA hB
    exact Option.noConfusion hB
  · rw [fragBlock_eq_of_prepStep_true s1in e sop s2 hps] at h
    split_ifs at h with h1 h2 h3 h4 h5 h6
    · injection h with hA hB
      exact Option.noConfusion hB
    · injection h with hA hB
      exact Option.noConfusion hB
    · injection h with hA hB
      exact Option.noConfusion hB
    · injection h with hA hB
      exact Option.noConfusion hB
    · injection h with hA hB
      exact Option.noConfusion hB
    · injection h with hA hB
      exact Option.noConfusion hB
    · injection h with hA hB
      subst hA
      rfl

/-- A fragBlock invocation leaves the accumulator inactive, or exactly as it
was, or it performed the copy (the buffer grew): a detected accumulation
error never leaves a newly active accumulator. -/
theorem fragBlock_shape (s1in : WsState) (e : DataEvent) (sop : Nat) :
    (fragBlock s1in e sop).1.accum.active = false ∨
    (fragBlock s1in e sop).1.accum = s1in.accum ∨
    (fragBlock s1in e sop).1.accumBufWrites ≠ s1in.accumBufWrites := by
  rcases hps : prepStep s1in e (totalLen e) sop with ⟨s2, b⟩
  have hw : s2.accumBufWrites = s1in.accumBufWrites := by
    have hx := prepStep_writes s1in e (totalLen e) sop
    rw [hps] at hx
    exact hx
  cases b
  · unfold fragBlock
    rw [hps]
    rcases prepStep_false_shape s1in e (totalLen e) sop s2 hps with hsh | hsh
    · exact Or.inr (Or.inl hsh)
    · exact Or.inl hsh
  · rw [fragBlock_eq_of_prepStep_true s1in e sop s2 hps]
    split_ifs with h1 h2 h3 h4 h5 h6
    · exact Or.inl rfl
    · exact Or.inl rfl
    · exact Or.inl rfl
    · exact Or.inl rfl
    · exact Or.inl rfl
    · refine Or.inr (Or.inr fun hEq => ?_)
      have hEq2 : (e.payload_offset, e.chunk) :: s2.accumBufWrites =
          s1in.accumBufWrites := hEq
      rw [hw] at hEq2
      exact writes_ne_cons s1in.accumBufWrites (e.payload_offset, e.chunk) hEq2.symm
    · exact Or.inl rfl

/-- The data handler either echoes nothing, or copied nothing, or has
deactivated the accumulator (first part: completion deactivates); and it
leaves the accumulator inactive, or exactly as it was, or it performed a
copy (second part: a detected error never leaves a newly active
accumulator). -/
theorem handleData_shape (s0 : WsState) (conn : Bool) (e : DataEvent) :
    ((handleDataEvent s0 conn e).2 = none ∨
      (handleDataEvent s0 conn e).1.accumBufWrites = s0.accumBufWrites ∨
      (handleDataEvent s0 conn e).1.accum.active = false) ∧
    ((handleDataEvent s0 conn e).1.accum.active = false ∨
      (handleDataEvent s0 conn e).1.accum = s0.accum ∨
      (handleDataEvent s0 conn e).1.accumBufWrites ≠ s0.accumBufWrites) := by
  by_cases hg1 : s0.test_running = false ∨ conn = false
  · have hmain : handleDataEvent s0 conn e = (wsReset s0, none) := by
      unfold handleDataEvent
      rw [if_pos hg1]
    rw [hmain]
    exact ⟨Or.inl rfl, Or.inl rfl⟩
  · have hdc : ¬ conn = false := fun hx => hg1 (Or.inr hx)
    by_cases hg2 : 8 ≤ e.op_code
    · have hmain : handleDataEvent s0 conn e = (s0, none) := by
        unfold handleDataEvent
        rw [if_neg hg1, if_pos hg2]
      rw [hmain]
      exact ⟨Or.inl rfl, Or.inr (Or.inl rfl)⟩
    · rcases hso : sendOpcodeFor e.op_code with _ | sop
      · have hmain : handleDataEvent s0 conn e = (s0, none) := by
          simp only [handleDataEvent, hso, if_neg hg1, if_neg hg2]
        rw [hmain]
        exact ⟨Or.inl rfl, Or.inr (Or.inl rfl)⟩
      · by_cases hp : e.ptrNull = true ∧ 0 < e.chunk.length
        · have hmain : handleDataEvent s0 conn e = (s0, none) := by
            simp only [handleDataEvent, hso, if_neg hg1, if_neg hg2, if_pos hp]
          rw [hmain]
          exact ⟨Or.inl rfl, Or.inr (Or.inl rfl)⟩
        · by_cases hfg : fragmented e ∧ 0 < totalLen e
          · rcases hfbv : fragBlock { s0 with accumBufAlloc := true } e sop with ⟨s1, eo⟩
            have hsh : s1.accum.active = false ∨ s1.accum = s0.accum ∨
                s1.accumBufWrites ≠ s0.accumBufWrites := by
              have hx := fragBlock_shape { s0 with accumBufAlloc := true } e sop
              rw [hfbv] at hx
              exact hx
            cases eo with
            | none =>
              have hmain : handleDataEvent s0 conn e = (s1, none) := by
                simp only [handleDataEvent, hso, if_neg hg1, if_neg hg2, if_neg hp,
                  if_pos hfg, hfbv]
              rw [hmain]
              exact ⟨Or.inl rfl, hsh⟩
            | some pr =>
              rcases pr with ⟨payload, sop2⟩
              have hinact : s1.accum.active = false :=
                fragBlock_some_inactive { s0 with accumBufAlloc := true } e sop s1
                  (payload, sop2) hfbv
              have hmain : handleDataEvent s0 conn e =
                  (s1, some { opcode := sop2, payload := payload }) := by
                simp only [handleDataEvent, hso, if_neg hg1, if_neg hg2, if_neg hp,
                  if_pos hfg, hfbv, if_neg hdc]
              rw [hmain]
              exact ⟨Or.inr (Or.inr hinact), Or.inl hinact⟩
          · have hmain : handleDataEvent s0 conn e =
                (s0, some { opcode := sop, payload := e.chunk }) := by
              simp only [handleDataEvent, hso, if_neg hg1, if_neg hg2, if_neg hp,
                if_neg hfg, if_neg hdc]
            rw [hmain]
            exact ⟨Or.inr (Or.inl rfl), Or.inr (Or.inl rfl)⟩

/-- Claim C5 (amended): the handler preserves the accumulator invariant
received at most expected_len at most capacity across every event; after a
Disconnected, Error or Finished event the accumulator is inactive; the
accumulator becomes active only when a data event enters the fragment
accumulation path (where the first fragment or chunk of a message is
prepared); whenever a reassembled message is handed on (an echo produced
after a copy into the buffer) the accumulator is left inactive; and an
invocation that copies nothing — in particular one that detected an
accumulation error — leaves the accumulator inactive or exactly as it was,
never newly active (so a failed offset 0 oversize prepare keeps, rather than
clears, a previously active accumulation). -/
theorem accumulator_lifecycle_invariant (s : WsState) (ev : WsEvent)
    (h : accInv s.accum) :
    accInv ((websocket_event_handler s ev).1).accum ∧
    ((ev ≠ WsEvent.disconnected ∧ ev ≠ WsEvent.error ∧ ev ≠ WsEvent.finish) ∨
      ((websocket_event_handler s ev).1).accum.active = false) ∧
    (((websocket_event_handler s ev).1).accum.active = false ∨
      s.accum.active = true ∨ isFragDataEvent ev) ∧
    ((websocket_event_handler s ev).2 = none ∨
      ((websocket_event_handler s ev).1).accumBufWrites = s.accumBufWrites ∨
      ((websocket_event_handler s ev).1).accum.active = false) ∧
    (((websocket_event_handler s ev).1).accum.active = false ∨
      ((websocket_event_handler s ev).1).accum = s.accum ∨
      ((websocket_event_handler s ev).1).accumBufWrites ≠ s.accumBufWrites) := by
  cases ev with
  | connected =>
    refine ⟨h, Or.inl ⟨by simp, by simp, by simp⟩, ?_, Or.inl rfl,
      Or.inr (Or.inl rfl)⟩
    cases hv : s.accum.active
    · exact Or.inl hv
    · exact Or.inr (Or.inl rfl)
  | disconnected =>
    exact ⟨accInv_reset _, Or.inr rfl, Or.inl rfl, Or.inl rfl, Or.inl rfl⟩
  | error =>
    exact ⟨accInv_reset _, Or.inr rfl, Or.inl rfl, Or.inl rfl, Or.inl rfl⟩
  | finish =>
    exact ⟨accInv_reset _, Or.inr rfl, Or.inl rfl, Or.inl rfl, Or.inl rfl⟩
  | data conn e =>
    obtain ⟨hs1, hs2⟩ := handleData_shape s conn e
    refine ⟨handleData_accInv s conn e h, Or.inl ⟨by simp, by simp, by simp⟩, ?_,
      hs1, hs2⟩
    rcases handleData_activation s conn e with hx | hx | hx
    · exact Or.inl hx
    · exact Or.inr (Or.inl hx)
    · exact Or.inr (Or.inr (by simpa [isFragDataEvent] using hx))

/-- Claim C5 counterexample: an 8 byte accumulation is active; an oversized
offset 0 delivery is then rejected by ws_accumulator_prepare with
ESP_ERR_INVALID_SIZE (a detected accumulation error), yet after that handler
invocation the accumulator is still active — the original claim that the
accumulator is inactive after any detected accumulation error is false. -/
theorem error_leaves_accumulator_active_counterexample :
    (ws_accumulator_prepare
        { (runEvents initState
            [WsEvent.connected, WsEvent.data true c2FirstFragment]).1 with
          accumBufAlloc := true }
        (totalLen oversizeEvent) 2).1 = EspErr.errInvalidSize ∧
    ((runEvents initState
        [WsEvent.connected, WsEvent.data true c2FirstFragment,
          WsEvent.data true oversizeEvent]).1).accum.active = true := by decide

/-- Claim C5 witness at a concrete input. -/
theorem accumulator_lifecycle_invariant_witness :
    accInv ((websocket_event_handler midAccumState
        (WsEvent.data true completingChunk)).1).accum ∧
    ((WsEvent.data true completingChunk ≠ WsEvent.disconnected ∧
        WsEvent.data true completingChunk ≠ WsEvent.error ∧
        WsEvent.data true completingChunk ≠ WsEvent.finish) ∨
      ((websocket_event_handler midAccumState
          (WsEvent.data true completingChunk)).1).accum.active = false) ∧
    (((websocket_event_handler midAccumState
          (WsEvent.data true completingChunk)).1).accum.active = false ∨
      midAccumState.accum.active = true ∨
      isFragDataEvent (WsEvent.data true completingChunk)) ∧
    ((websocket_event_handler midAccumState
        (WsEvent.data true completingChunk)).2 = none ∨
      ((websocket_event_handler midAccumState
          (WsEvent.data true completingChunk)).1).accumBufWrites =
        midAccumState.accumBufWrites ∨
      ((websocket_event_handler midAccumState
          (WsEvent.data true completingChunk)).1).accum.active = false) ∧
    (((websocket_event_handler midAccumState
          (WsEvent.data true completingChunk)).1).accum.active = false ∨
      ((websocket_event_handler midAccumState
          (WsEvent.data true completingChunk)).1).accum = midAccumState.accum ∨
      ((websocket_event_handler midAccumState
          (WsEvent.data true completingChunk)).1).accumBufWrites ≠
        midAccumState.accumBufWrites) :=
  accumulator_lifecycle_invariant midAccumState (WsEvent.data true completingChunk)
    (by decide)

/-- Claim C7 witness at a concrete input: a ping arriving mid-accumulation
leaves the whole handler state unchanged and is answered by exactly one pong
with the identical payload. -/
theorem control_frames_preserve_accumulator_witness :
    handleDataEvent midAccumState true pingEvent = (midAccumState, none) ∧
    wsClientAutoPong pingEvent =
      (if pingEvent.op_code = 9 then [pingEvent.chunk] else []) :=
  control_frames_preserve_accumulator midAccumState true pingEvent (by decide)
    (by decide) (by decide)

/-- closeCascade preserves the stack depth. -/
theorem closeCascade_length (l : List Layer) :
    (closeCascade l).length = l.length := by
  induction l with
  | nil => rfl
  | cons x rest ih =>
    unfold closeCascade
    split_ifs <;> simp [ih]

/-- closeAt preserves the stack depth. -/
theorem closeAt_length (s : List Layer) (i : Nat) :
    (closeAt s i).length = s.length := by
  unfold closeAt
  rw [List.length_append, closeCascade_length, List.length_take, List.length_drop]
  omega

/-- runCloses preserves the stack depth. -/
theorem runCloses_length (ops : List Nat) :
    ∀ s : List Layer, (runCloses s ops).length = s.length := by
  induction ops with
  | nil => intro s; rfl
  | cons op rest ih =>
    intro s
    show (runCloses (closeAt s op) rest).length = s.length
    rw [ih (closeAt s op), closeAt_length]

/-- A list whose members are all a is a replicate of a. -/
theorem eq_replicate_of_forall (l : List Layer) (a : Layer)
    (h : ∀ x ∈ l, x = a) : l = List.replicate l.length a := by
  induction l with
  | nil => rfl
  | cons x rest ih =>
    rw [List.length_cons, List.replicate_succ, h x (by simp)]
    exact congrArg _ (ih fun y hy => h y (by simp [hy]))

/-- The fresh stack satisfies the release-count invariant. -/
theorem RelOk_openStack (d : Nat) : RelOk (openStack d) := by
  intro x hx
  rw [List.eq_of_mem_replicate hx]
  decide

/-- The fresh stack satisfies the downward-closed invariant. -/
theorem DC_openStack (d : Nat) : DC (openStack d) := by
  induction d with
  | zero => exact trivial
  | succ n ih =>
    unfold openStack
    rw [List.replicate_succ]
    exact ⟨fun hcl => by simp at hcl, ih⟩

/-- DC restricted to a suffix. -/
theorem DC_drop (i : Nat) : ∀ l : List Layer, DC l → DC (l.drop i) := by
  induction i with
  | zero => intro l h; exact h
  | succ n ih =>
    intro l h
    cases l with
    | nil => exact trivial
    | cons x rest => exact ih rest h.2

/-- Under the invariants, cascading a close over a stack suffix closes every
layer in it, each released exactly once. -/
theorem closeCascade_spec (l : List Layer) (hr : RelOk l) (hd : DC l) :
    closeCascade l =
      List.replicate l.length { closed := true, releases := 1 } := by
  induction l with
  | nil => rfl
  | cons x rest ih =>
    by_cases hc : x.closed = true
    · have hall : ∀ y ∈ x :: rest, y = ({ closed := true, releases := 1 } : Layer) := by
        intro y hy
        rcases List.mem_cons.mp hy with hy1 | hy2
        · have hrel := hr x (by simp)
          rw [if_pos hc] at hrel
          subst hy1
          cases y with
          | mk c r => simp_all
        · have hyc := hd.1 hc y hy2
          have hrel := hr y (by simp [hy2])
          rw [if_pos hyc] at hrel
          cases y with
          | mk c r => simp_all
      have hstep : closeCascade (x :: rest) = x :: rest := by
        unfold closeCascade
        rw [if_pos hc]
      rw [hstep]
      exact eq_replicate_of_forall _ _ hall
    · have hx0 : x.releases = 0 := by
        have hrel := hr x (by simp)
        rwa [if_neg hc] at hrel
      have hstep : closeCascade (x :: rest) =
          { closed := true, releases := x.releases + 1 } :: closeCascade rest := by
        simp only [closeCascade]
        rw [if_neg hc]
      rw [hstep, hx0, ih (fun y hy => hr y (by simp [hy])) hd.2,
        List.length_cons, List.replicate_succ]

/-- Under the invariants, one close call replaces the suffix from layer i on
by closed layers, each released exactly once. -/
theorem closeAt_spec (s : List Layer) (i : Nat) (hr : RelOk s) (hd : DC s) :
    closeAt s i =
      s.take i ++ List.replicate (s.length - i) { closed := true, releases := 1 } := by
  unfold closeAt
  rw [closeCascade_spec (s.drop i) (fun x hx => hr x (List.drop_subset _ _ hx))
    (DC_drop i s hd), List.length_drop]

/-- The fully closed replicate satisfies DC. -/
theorem DC_replicate_closed (m : Nat) :
    DC (List.replicate m { closed := true, releases := 1 }) := by
  induction m with
  | zero => exact trivial
  | succ n ih =>
    rw [List.replicate_succ]
    exact ⟨fun _ y hy => by rw [List.eq_of_mem_replicate hy], ih⟩

/-- DC survives replacing the suffix by closed layers. -/
theorem DC_take_append_replicate :
    ∀ (s : List Layer) (i m : Nat), DC s →
      DC (s.take i ++ List.replicate m { closed := true, releases := 1 }) := by
  intro s
  induction s with
  | nil =>
    intro i m _
    simpa using DC_replicate_closed m
  | cons x rest ih =>
    intro i m hdc
    cases i with
    | zero => simpa using DC_replicate_closed m
    | succ k =>
      rw [List.take_succ_cons, List.cons_append]
      refine ⟨fun hc y hy => ?_, ih k m hdc.2⟩
      rcases List.mem_append.mp hy with hy1 | hy2
      · exact hdc.1 hc y (List.take_subset _ _ hy1)
      · rw [List.eq_of_mem_replicate hy2]

/-- RelOk is preserved by one close call. -/
theorem RelOk_closeAt (s : List Layer) (i : Nat) (hr : RelOk s) (hd : DC s) :
    RelOk (closeAt s i) := by
  rw [closeAt_spec s i hr hd]
  intro x hx
  rcases List.mem_append.mp hx with hx1 | hx2
  · exact hr x (List.take_subset _ _ hx1)
  · rw [List.eq_of_mem_replicate hx2]
    decide

/-- DC is preserved by one close call. -/
theorem DC_closeAt (s : List Layer) (i : Nat) (hr : RelOk s) (hd : DC s) :
    DC (closeAt s i) := by
  rw [closeAt_spec s i hr hd]
  exact DC_take_append_replicate s i _ hd

/-- Both invariants are preserved by any sequence of close calls. -/
theorem RelOk_DC_runCloses (ops : List Nat) :
    ∀ s : List Layer, RelOk s → DC s →
      RelOk (runCloses s ops) ∧ DC (runCloses s ops) := by
  induction ops with
  | nil => intro s hr hd; exact ⟨hr, hd⟩
  | cons op rest ih =>
    intro s hr hd
    exact ih (closeAt s op) (RelOk_closeAt s op hr hd) (DC_closeAt s op hr hd)

/-- layerAt on the left part of an append. -/
theorem layerAt_append_left :
    ∀ (a b : List Layer) (k : Nat), k < a.length →
      layerAt (a ++ b) k = layerAt a k := by
  intro a
  induction a with
  | nil => intro b k h; simp at h
  | cons x rest ih =>
    intro b k h
    cases k with
    | zero => rfl
    | succ n => exact ih b n (by simpa using h)

/-- layerAt on the right part of an append. -/
theorem layerAt_append_right :
    ∀ (a b : List Layer) (k : Nat), a.length ≤ k →
      layerAt (a ++ b) k = layerAt b (k - a.length) := by
  intro a
  induction a with
  | nil => intro b k _; rfl
  | cons x rest ih =>
    intro b k h
    cases k with
    | zero => simp at h
    | succ n =>
      show layerAt (rest ++ b) n = layerAt b (n + 1 - (rest.length + 1))
      rw [ih b n (by simpa using h)]
      congr 1
      omega

/-- layerAt inside a replicate. -/
theorem layerAt_replicate_lt (a : Layer) :
    ∀ (n k : Nat), k < n → layerAt (List.replicate n a) k = a := by
  intro n
  induction n with
  | zero => intro k h; omega
  | succ m ih =>
    intro k h
    rw [List.replicate_succ]
    cases k with
    | zero => rfl
    | succ j => exact ih j (by omega)

/-- layerAt inside a take prefix. -/
theorem layerAt_take :
    ∀ (s : List Layer) (i k : Nat), k < i → layerAt (s.take i) k = layerAt s k := by
  intro s
  induction s with
  | nil => intro i k _; rw [List.take_nil]
  | cons x rest ih =>
    intro i k h
    cases i with
    | zero => omega
    | succ m =>
      rw [List.take_succ_cons]
      cases k with
      | zero => rfl
      | succ j => exact ih m j (by omega)

/-- layerAt past the end of the stack is the closed default. -/
theorem layerAt_of_length_le :
    ∀ (s : List Layer) (k : Nat), s.length ≤ k → layerAt s k = layerDefault := by
  intro s
  induction s with
  | nil => intro k _; rfl
  | cons x rest ih =>
    intro k h
    cases k with
    | zero => simp at h
    | succ n => exact ih n (by simpa using h)

/-- layerAt of an in-range index is a member of the stack. -/
theorem layerAt_mem :
    ∀ (s : List Layer) (i : Nat), i < s.length → layerAt s i ∈ s := by
  intro s
  induction s with
  | nil => intro i h; simp at h
  | cons x rest ih =>
    intro i h
    cases i with
    | zero => exact List.mem_cons_self x rest
    | succ n => exact List.mem_cons_of_mem x (ih n (by simpa using h))

/-- The dropped suffix starts with the layer at the drop index. -/
theorem drop_eq_layerAt_cons :
    ∀ (s : List Layer) (i : Nat), i < s.length →
      s.drop i = layerAt s i :: s.drop (i + 1) := by
  intro s
  induction s with
  | nil => intro i h; simp at h
  | cons x rest ih =>
    intro i h
    cases i with
    | zero => rfl
    | succ n => exact ih n (by simpa using h)

/-- Closing the layer at i marks it closed (under the invariants). -/
theorem closedAt_closeAt_self (s : List Layer) (i : Nat) (hr : RelOk s)
    (hd : DC s) (hi : i < s.length) : closedAt (closeAt s i) i = true := by
  unfold closedAt
  rw [closeAt_spec s i hr hd]
  have hlt : (s.take i).length = i := by
    rw [List.length_take]
    omega
  rw [layerAt_append_right _ _ i (by omega), hlt, Nat.sub_self,
    layerAt_replicate_lt _ _ 0 (by omega)]

/-- A closed layer stays closed across any close call. -/
theorem closedAt_closeAt_mono (s : List Layer) (i k : Nat) (hr : RelOk s)
    (hd : DC s) (h : closedAt s k = true) :
    closedAt (closeAt s i) k = true := by
  by_cases hk : k < s.length
  · by_cases hki : k < i
    · have hkt : k < (s.take i).length := by
        rw [List.length_take]
        omega
      unfold closedAt
      rw [closeAt_spec s i hr hd, layerAt_append_left _ _ _ hkt, layerAt_take s i k hki]
      exact h
    · have hi : i ≤ k := by omega
      have hil : i < s.length := by omega
      unfold closedAt
      rw [closeAt_spec s i hr hd,
        layerAt_append_right _ _ k (by rw [List.length_take]; omega),
        List.length_take]
      rw [layerAt_replicate_lt _ _ _ (by omega)]
  · unfold closedAt
    rw [layerAt_of_length_le _ _ (by rw [closeAt_length]; omega)]
    rfl

/-- Closing an already closed layer leaves the whole stack untouched. -/
theorem closeAt_of_closed (s : List Layer) (i : Nat)
    (h : closedAt s i = true) : closeAt s i = s := by
  by_cases hlen : s.length ≤ i
  · unfold closeAt
    rw [List.drop_eq_nil_of_le hlen]
    show s.take i ++ [] = s
    rw [List.append_nil]
    exact List.take_of_length_le hlen
  · push_neg at hlen
    have hdrop := drop_eq_layerAt_cons s i hlen
    unfold closeAt
    rw [hdrop]
    have hstep : closeCascade (layerAt s i :: s.drop (i + 1)) =
        layerAt s i :: s.drop (i + 1) := by
      simp only [closeCascade]
      rw [if_pos (show (layerAt s i).closed = true from h)]
    rw [hstep, ← hdrop, List.take_append_drop]

/-- A closed layer stays closed across any sequence of close calls. -/
theorem closedAt_runCloses_mono (ops : List Nat) :
    ∀ (s : List Layer) (k : Nat), RelOk s → DC s → closedAt s k = true →
      closedAt (runCloses s ops) k = true := by
  induction ops with
  | nil => intro s k _ _ h; exact h
  | cons op rest ih =>
    intro s k hr hd h
    exact ih (closeAt s op) k (RelOk_closeAt s op hr hd) (DC_closeAt s op hr hd)
      (closedAt_closeAt_mono s op k hr hd h)

/-- A closed layer of an invariant-satisfying stack has been released
exactly once. -/
theorem releasesAt_of_closed (s : List Layer) (i : Nat) (hr : RelOk s)
    (hi : i < s.length) (hc : closedAt s i = true) : releasesAt s i = 1 := by
  have hmem := hr (layerAt s i) (layerAt_mem s i hi)
  unfold releasesAt
  rw [hmem, if_pos (show (layerAt s i).closed = true from hc)]

/-- Claim C1 (modelled from the spec, transport.c not being among the
sources): for every layer of the stack and every sequence of close
invocations that names that layer at least once, in any interleaving with
closes of other layers, the layer's underlying resource is released exactly
once; and a further close of that layer is a no-op that leaves the stack
untouched (close always reports success in this model, as the fix specifies
returning 0 for an already closed transport). -/
theorem transport_close_exactly_once (d : Nat) (ops : List Nat) (i : Nat)
    (hd : i < d) (hmem : i ∈ ops) :
    releasesAt (runCloses (openStack d) ops) i = 1 ∧
    closeAt (runCloses (openStack d) ops) i = runCloses (openStack d) ops := by
  obtain ⟨pre, post, rfl⟩ := List.append_of_mem hmem
  have hsplit : runCloses (openStack d) (pre ++ i :: post) =
      runCloses (closeAt (runCloses (openStack d) pre) i) post := by
    unfold runCloses
    rw [List.foldl_append]
    rfl
  have hlen0 : (openStack d).length = d := List.length_replicate d _
  have hinv1 := RelOk_DC_runCloses pre (openStack d) (RelOk_openStack d)
    (DC_openStack d)
  have hlen1 : (runCloses (openStack d) pre).length = d := by
    rw [runCloses_length, hlen0]
  have hinv2 : RelOk (closeAt (runCloses (openStack d) pre) i) ∧
      DC (closeAt (runCloses (openStack d) pre) i) :=
    ⟨RelOk_closeAt _ i hinv1.1 hinv1.2, DC_closeAt _ i hinv1.1 hinv1.2⟩
  have hclosed2 : closedAt (closeAt (runCloses (openStack d) pre) i) i = true :=
    closedAt_closeAt_self _ i hinv1.1 hinv1.2 (by omega)
  have hclosedF : closedAt (runCloses (closeAt (runCloses (openStack d) pre) i)
      post) i = true :=
    closedAt_runCloses_mono post _ i hinv2.1 hinv2.2 hclosed2
  have hinvF := RelOk_DC_runCloses post _ hinv2.1 hinv2.2
  have hlenF : (runCloses (closeAt (runCloses (openStack d) pre) i) post).length
      = d := by
    rw [runCloses_length, closeAt_length, hlen1]
  constructor
  · rw [hsplit]
    exact releasesAt_of_closed _ i hinvF.1 (by omega) hclosedF
  · rw [hsplit]
    exact closeAt_of_closed _ i hclosedF

/-- Claim C1 witness at a concrete input: a three layer stack, closed via the
sequence close(0), close(2), close(0). -/
theorem transport_close_exactly_once_witness :
    releasesAt (runCloses (openStack 3) [0, 2, 0]) 2 = 1 ∧
    closeAt (runCloses (openStack 3) [0, 2, 0]) 2 =
      runCloses (openStack 3) [0, 2, 0] :=
  transport_close_exactly_once 3 [0, 2, 0] 2 (by decide) (by decide)

/-- The per-failure wait equals sched of the cumulative failure count. -/
theorem schedList_eq_map :
    ∀ (k attempt : Nat), attempt ≤ 6 →
      schedList attempt k = (List.range k).map (fun j => sched (attempt + j)) := by
  intro k
  induction k with
  | zero => intro attempt _; rfl
  | succ n ih =>
    intro attempt hatt
    rw [List.range_succ_eq_map, List.map_cons, List.map_map]
    show (if attempt < 6 then backoff.getD attempt 32 else 32) ::
        schedList (if attempt < 6 then attempt + 1 else attempt) n = _
    rw [ih _ (by split_ifs <;> omega)]
    congr 1
    apply List.map_congr_left
    intro j _
    show sched ((if attempt < 6 then attempt + 1 else attempt) + j) =
      sched (attempt + (j + 1))
    by_cases hlt : attempt < 6
    · rw [if_pos hlt]
      congr 1
      omega
    · rw [if_neg hlt]
      have h6 : attempt = 6 := by omega
      subst h6
      unfold sched
      rw [if_neg (by omega), if_neg (by omega)]

/-- While connected and would-blocked k times before a success, the retry
loop waits schedList attempt k and then returns the successful byte count. -/
theorem echoSendRetryLoop_success (res : Nat → Int) :
    ∀ (k iter attempt fuel : Nat),
      (∀ j, j < k → res (iter + j) < 0) → 0 ≤ res (iter + k) → k < fuel →
      echoSendRetryLoop (fun _ => true) res iter attempt fuel =
        (schedList attempt k, EchoResult.success (res (iter + k))) := by
  intro k
  induction k with
  | zero =>
    intro iter attempt fuel hwb hok hfuel
    obtain ⟨m, rfl⟩ : ∃ m, fuel = m + 1 := ⟨fuel - 1, by omega⟩
    simp only [echoSendRetryLoop]
    rw [if_neg (by simp), if_pos (by simpa using hok)]
    simp [schedList]
  | succ n ih =>
    intro iter attempt fuel hwb hok hfuel
    obtain ⟨m, rfl⟩ : ∃ m, fuel = m + 1 := ⟨fuel - 1, by omega⟩
    have h0 : res iter < 0 := by simpa using hwb 0 (by omega)
    have ihx := ih (iter + 1) (if attempt < 6 then attempt + 1 else attempt) m
      (fun j hj => by
        have hx := hwb (j + 1) (by omega)
        have hidx : iter + (j + 1) = iter + 1 + j := by omega
        rwa [hidx] at hx)
      (by
        have hidx : iter + (n + 1) = iter + 1 + n := by omega
        rwa [hidx] at hok)
      (by omega)
    simp only [echoSendRetryLoop]
    rw [if_neg (by simp), if_neg (by omega), ihx]
    have hidx : iter + 1 + n = iter + (n + 1) := by omega
    rw [hidx]
    rfl

/-- Claim C8 (amended): while the transport keeps reporting a failed
(would-block) send and the connection stays up, the retry loop waits per the
bounded backoff table (1, 1, 1, 2, 4, 8 ticks) for the first six failed
attempts and then at the fixed 32 tick interval, and a send that succeeds
after any number of consecutive would-blocks (in particular five) returns
success with the bytes written; the loop terminates with the failure
reported when the connection is observed lost — it has no deadline. -/
theorem send_retry_backoff_termination
    (res : Nat → Int) (k iter attempt fuel : Nat)
    (conn2 : Nat → Bool) (res2 : Nat → Int) (iter2 attempt2 fuel2 : Nat)
    (hatt : attempt ≤ 6)
    (hwb : ∀ j, j < k → res (iter + j) < 0)
    (hok : 0 ≤ res (iter + k))
    (hfuel : k < fuel)
    (hconn2 : conn2 iter2 = false)
    (hfuel2 : 0 < fuel2) :
    echoSendRetryLoop (fun _ => true) res iter attempt fuel =
      ((List.range k).map (fun j => sched (attempt + j)),
        EchoResult.success (res (iter + k))) ∧
    echoSendRetryLoop conn2 res2 iter2 attempt2 fuel2 = ([], EchoResult.failed) := by
  constructor
  · rw [echoSendRetryLoop_success res k iter attempt fuel hwb hok hfuel,
      schedList_eq_map k attempt hatt]
  · obtain ⟨m, rfl⟩ : ∃ m, fuel2 = m + 1 := ⟨fuel2 - 1, by omega⟩
    simp only [echoSendRetryLoop]
    rw [if_pos hconn2]

/-- Claim C8 counterexample: with the transport would-blocking forever and
the connection staying up, the loop never reports a failure — after 50
attempts (cumulative wait 1425 ticks, far beyond every send timeout the file
uses) it is still retrying, so the claim that the loop terminates when a
deadline elapses is false: no deadline exists. -/
theorem send_retry_no_deadline_counterexample :
    (echoSendRetryLoop (fun _ => true) (fun _ => -1) 0 0 50).2 =
      EchoResult.running ∧
    (echoSendRetryLoop (fun _ => true) (fun _ => -1) 0 0 50).1.sum = 1425 := by
  exact ⟨rfl, rfl⟩

/-- Claim C8 witness at a concrete input: five would-blocks then a 42 byte
success, and a loop entered with the connection already lost. -/
theorem send_retry_backoff_termination_witness :
    echoSendRetryLoop (fun _ => true) resWitness 0 0 10 =
      ((List.range 5).map (fun j => sched (0 + j)),
        EchoResult.success (resWitness (0 + 5))) ∧
    echoSendRetryLoop (fun _ => false) (fun _ => -1) 0 0 1 =
      ([], EchoResult.failed) :=
  send_retry_backoff_termination resWitness 5 0 0 10 (fun _ => false)
    (fun _ => -1) 0 0 1 (by decide) (by decide) (by decide) (by decide)
    (by decide) (by decide)
